import Mathlib

/-!
Verification of the field-classification and derivation engine of the
prisma-generator-nestjs repository against its natural-language specification.

The definitions below are a shallow embedding of the source files
`src/generator/compute-model-params/compute-zod-params.ts`,
`src/generator/zod-schema.ts` (scalar table and validator compiler) and
`src/generator/index.ts` (orchestrator `run`).  Helper modules that the
repository imports but whose sources are not part of the verified tree
(field classifiers, field materializer, import aggregator, template helpers,
relative-path helper) are modelled from the specification, sections 4.1, 4.2,
4.5 and 3; each such definition carries a doc comment saying so.
-/

namespace Gen

/-- Recognized documentation tags.  Modelled from the spec: section 3
"Annotation" and section 9 recommend representing the free-text documentation
markers as a typed set of recognized tags; the constructors below correspond
one-to-one to the tag constants imported from `../annotations`
(DTO_CREATE_HIDDEN, DTO_CREATE_OPTIONAL, DTO_CREATE_REQUIRED,
DTO_ENTITY_HIDDEN, DTO_CONNECT_HIDDEN, DTO_UPDATE_HIDDEN,
DTO_UPDATE_REQUIRED, DTO_RELATION_INCLUDE_ID, DTO_RELATION_REQUIRED,
DTO_OVERRIDE_TYPE, DTO_CAST_TYPE, DTO_IGNORE_MODEL). -/
inductive AnnotationTag where
  | createHidden
  | createOptional
  | createRequired
  | entityHidden
  | connectHidden
  | updateHidden
  | updateRequired
  | relationIncludeId
  | relationRequired
  | overrideType
  | castType
  | ignoreModel
  deriving DecidableEq, BEq, Repr

/-- A default-value descriptor attached to a field: either a named generator
(`autoincrement`, `uuid`, `now`, ...; the TS object form with a `name`) or a
plain literal default value. -/
inductive DefaultValue where
  | named (name : String)
  | literal
  deriving DecidableEq, BEq, Repr

/-- Field kind, as in the DMMF: `scalar`, `object` or `enum`. -/
inductive FieldKind where
  | scalar
  | object
  | enum
  deriving DecidableEq, BEq, Repr

/-- A model field, mirroring the DMMF field record consumed by the generator
(spec section 3 "Field").  `documentation` holds the parsed annotation tags. -/
structure Field where
  name : String
  type : String
  kind : FieldKind
  isList : Bool
  isRequired : Bool
  isId : Bool
  isUnique : Bool
  isReadOnly : Bool
  isUpdatedAt : Bool
  default : Option DefaultValue
  relationName : Option String
  relationFromFields : List String
  documentation : List AnnotationTag
  deriving DecidableEq, BEq, Repr

/-- Output-location descriptor of a model: one path slot for DTO-style
outputs and one for entity-style outputs. -/
structure ModelOutput where
  dto : String
  entity : String
  deriving DecidableEq, BEq, Repr

/-- A model of the registry (spec section 3 "Model"). -/
structure Model where
  name : String
  fields : List Field
  documentation : List AnnotationTag
  output : ModelOutput
  deriving DecidableEq, BEq, Repr

/-- Representation-local overrides applied by a Deriver; mirrors the TS
`Partial<ParsedField>` objects that only ever set `isRequired` and
`isNullable`. -/
structure Overrides where
  isRequired : Option Bool
  isNullable : Option Bool
  deriving DecidableEq, BEq, Repr

/-- A field materialized for one target representation (spec section 3
"ParsedField"): the source field plus resolved representation-local
`isRequired`/`isNullable` and the owning model name. -/
structure ParsedField extends Field where
  isNullable : Bool
  modelName : String
  deriving DecidableEq, BEq, Repr

/-- An import requirement `{ from, destruct }` (spec section 3
"ImportRequirement"; `sourcePath` is `from_`, `namedImports` is `destruct`). -/
structure ImportStatementParams where
  from_ : String
  destruct : List String
  deriving DecidableEq, BEq, Repr

/-- Result of one Representation Deriver run on one model
(spec section 4.3). -/
structure ZodSchemaParams where
  model : Model
  fields : List ParsedField
  imports : List ImportStatementParams
  lazyRelations : List String
  deriving DecidableEq, BEq, Repr

/- ------------------------------------------------------------------ -/
/- Field classifiers.                                                  -/
/- ------------------------------------------------------------------ -/

/-- Modelled from the spec: section 4.1 `isAnnotatedWith(field, tag)` scans
the field documentation for the given recognized tag (source
`field-classifiers` module, not part of the verified tree). -/
def isAnnotatedWith (f : Field) (a : AnnotationTag) : Bool :=
  f.documentation.contains a

/-- Modelled from the spec: section 4.1, classifier `isId`. -/
def isId (f : Field) : Bool := f.isId

/-- Modelled from the spec: section 4.1, classifier `isUnique`. -/
def isUnique (f : Field) : Bool := f.isUnique

/-- Modelled from the spec: section 4.1, classifier `isReadOnly`. -/
def isReadOnly (f : Field) : Bool := f.isReadOnly

/-- Modelled from the spec: section 4.1, classifier `isRelation` — an
object-kind field that carries a relation name. -/
def isRelation (f : Field) : Bool :=
  f.kind == FieldKind.object && f.relationName.isSome

/-- Modelled from the spec: section 4.1, classifier `isEmbeddedType`
(source name `isType`) — an object-kind field without a relation name. -/
def isType (f : Field) : Bool :=
  f.kind == FieldKind.object && f.relationName.isNone

/-- Modelled from the spec: section 4.1, classifier
`isUpdatedAtTimestamp` (source name `isUpdatedAt`). -/
def isUpdatedAt (f : Field) : Bool := f.isUpdatedAt

/-- Modelled from the spec: section 4.1 — true iff the field is an id and
has a non-null default-value descriptor. -/
def isIdWithDefaultValue (f : Field) : Bool :=
  isId f && f.default.isSome

/-- Modelled from the spec: section 4.1 — true iff schema-required, has a
default-value descriptor, and is not an id. -/
def isRequiredWithDefaultValue (f : Field) : Bool :=
  f.isRequired && f.default.isSome && !f.isId

/-- Check if a field has a custom type override tag
(`@DtoOverrideType` or `@DtoCastType`); from
`compute-zod-params.ts`, `hasCustomTypeOverride`. -/
def hasCustomTypeOverride (f : Field) : Bool :=
  isAnnotatedWith f AnnotationTag.overrideType ||
  isAnnotatedWith f AnnotationTag.castType

/- ------------------------------------------------------------------ -/
/- Materializer and helpers.                                          -/
/- ------------------------------------------------------------------ -/

/-- Modelled from the spec: section 4.2 Field Materializer
(`mapDMMFToParsedField` from the source `helpers` module, not part of the
verified tree): overrides take precedence over the field schema-level flags,
attributes not present in the overrides are copied unchanged, and a missing
`isNullable` override leaves the flag falsy. -/
def mapDMMFToParsedField (f : Field) (o : Overrides) (modelName : String) :
    ParsedField :=
  { toField := { f with isRequired := o.isRequired.getD f.isRequired }
    isNullable := o.isNullable.getD false
    modelName := modelName }

/-- Modelled from the spec: section 3 "RelationScalarMap" (source helper
`getRelationScalars`, not part of the verified tree): maps each foreign-key
scalar field name appearing in some relation `relationFromFields` to the
names of the relation fields that reference it. -/
def getRelationScalars (fields : List Field) : List (String × List String) :=
  let scalars := (fields.map (fun f => f.relationFromFields)).flatten
  scalars.foldl
    (fun acc s =>
      if acc.any (fun p => p.1 == s) then acc
      else
        acc ++
          [(s, (fields.filter (fun f => f.relationFromFields.contains s)).map
              (fun f => f.name))])
    []

/-- The relation-scalar field names of a field list: the keys of the
relation-scalar map (`relationScalarFieldNames` in each deriver). -/
def rsfNamesOf (fields : List Field) : List String :=
  (getRelationScalars fields).map (fun p => p.1)

/-- Modelled from the spec: section 4.5 Import Aggregator
(`zipImportStatementParams` from the source `helpers` module): group by exact
source-path equality, union named-import lists preserving first-seen order,
emit groups in order of first appearance. -/
def zipImportStatementParams (items : List ImportStatementParams) :
    List ImportStatementParams :=
  items.foldl
    (fun acc it =>
      if acc.any (fun old => old.from_ == it.from_) then
        acc.map fun old =>
          if old.from_ == it.from_ then
            { old with
              destruct :=
                old.destruct ++
                  it.destruct.filter (fun d => !old.destruct.contains d) }
          else old
      else acc ++ [it])
    []

/-- Split a character list on the slash character. -/
def splitSegs : List Char → List (List Char)
  | [] => [[]]
  | c :: cs =>
      let r := splitSegs cs
      if c == '/' then [] :: r
      else
        match r with
        | [] => [[c]]
        | seg :: rest => (c :: seg) :: rest

/-- Modelled from the spec: relative-path computation between two output
directories (source helper `getRelativePath`, not part of the verified tree).
The derivations proved below never depend on its exact value. -/
def splitPath (p : String) : List String :=
  ((splitSegs p.toList).map (fun seg => String.mk seg)).filter
    (fun s => s ≠ "" && s ≠ ".")

/-- Drop the common prefix of two path segment lists. -/
def dropCommon : List String → List String → List String × List String
  | [], bs => ([], bs)
  | as, [] => (as, [])
  | a :: as, b :: bs =>
      if a == b then dropCommon as bs else (a :: as, b :: bs)

/-- Join path segments with slashes. -/
def joinPath : List String → String
  | [] => ""
  | [s] => s
  | s :: rest => s ++ "/" ++ joinPath rest

/-- Modelled from the spec: relative path from `fromDir` to `toDir`. -/
def getRelativePath (fromDir toDir : String) : String :=
  let p := dropCommon (splitPath fromDir) (splitPath toDir)
  joinPath (p.1.map (fun _ => "..") ++ p.2)

/-- Modelled from the spec: section 6 configuration surface relevant to the
Zod derivers (`templateHelpers.config`). -/
structure TemplateHelpersConfig where
  prismaClientImportPath : String
  showDefaultValues : Bool

/-- Modelled from the spec: the naming helpers produced by `makeHelpers`
(source `template-helpers` module, not part of the verified tree).  Schema
name helpers take a model/type name; filename helpers additionally take the
with-extension flag used by the orchestrator. -/
structure TemplateHelpers where
  entityZodSchemaName : String → String
  plainZodSchemaName : String → String
  createZodSchemaName : String → String
  updateZodSchemaName : String → String
  connectZodSchemaName : String → String
  entityZodSchemaFilename : String → Bool → String
  plainZodSchemaFilename : String → Bool → String
  createZodSchemaFilename : String → Bool → String
  updateZodSchemaFilename : String → Bool → String
  connectZodSchemaFilename : String → Bool → String
  connectDtoFilename : String → Bool → String
  createDtoFilename : String → Bool → String
  updateDtoFilename : String → Bool → String
  plainDtoFilename : String → Bool → String
  entityFilename : String → Bool → String
  config : TemplateHelpersConfig

/- ------------------------------------------------------------------ -/
/- Validator Expression Compiler (src/generator/zod-schema.ts).        -/
/- ------------------------------------------------------------------ -/

/-- The scalar-to-validator table `PrismaScalarToZod` (zod-schema.ts). -/
def PrismaScalarToZod : List (String × String) :=
  [("String", "z.string()"),
   ("Boolean", "z.boolean()"),
   ("Int", "z.int()"),
   ("BigInt", "z.bigint()"),
   ("Float", "z.number()"),
   ("Decimal", "z.number()"),
   ("DateTime", "z.date()"),
   ("Json", "z.record(z.any())"),
   ("Bytes", "z.instanceof(Buffer)")]

/-- `scalarToZod` (zod-schema.ts): table lookup with the unconstrained
validator as fallback. -/
def scalarToZod (scalar : String) : String :=
  ((PrismaScalarToZod.find? (fun p => p.1 == scalar)).map (fun p => p.2)).getD
    "z.any()"

/-- `isUuidField` (zod-schema.ts): id of String type whose default is the
`uuid` generator. -/
def isUuidField (f : ParsedField) : Bool :=
  f.isId && f.type == "String" &&
    (match f.default with
     | some (DefaultValue.named n) => n == "uuid"
     | _ => false)

/-- `isAutoTimestamp` (zod-schema.ts): DateTime field that is an updated-at
timestamp or has a `now` default generator. -/
def isAutoTimestamp (f : ParsedField) : Bool :=
  f.type == "DateTime" &&
    (f.isUpdatedAt ||
      (match f.default with
       | some (DefaultValue.named n) => n == "now"
       | _ => false))

/-- Options of the validator compiler (zod-schema.ts `FieldToZodOptions`). -/
structure FieldToZodOptions where
  schemaName : Option (String → String)
  isUpdateSchema : Bool

/-- Base validator expression of `fieldToZodValidator` (zod-schema.ts):
resolution order custom-type tag, relation/embedded type, enum, uuid id,
auto timestamp, scalar table; then the array wrapper. -/
def fieldToZodBase (field : ParsedField) (options : FieldToZodOptions) :
    String :=
  let hasCustomType :=
    isAnnotatedWith field.toField AnnotationTag.overrideType ||
    isAnnotatedWith field.toField AnnotationTag.castType
  let validator :=
    if hasCustomType then "z.any()"
    else if isRelation field.toField || isType field.toField then
      let targetSchema :=
        match options.schemaName with
        | some f => f field.type
        | none => field.type ++ "Schema"
      "z.lazy(() => " ++ targetSchema ++ ")"
    else if field.kind == FieldKind.enum then
      "z.nativeEnum(" ++ field.type ++ ")"
    else if isUuidField field then "z.uuidv7()"
    else if isAutoTimestamp field then
      "z.iso.datetime().pipe(z.transform((v) => new Date(v)))"
    else scalarToZod field.type
  if field.isList then validator ++ ".array()" else validator

/-- `fieldToZodValidator` (zod-schema.ts): base expression plus the
optionality composition — update schemas force `.nullish()` on every non-id
field; otherwise nullable+optional and bare optional collapse to
`.nullish()` and nullable-only yields `.nullable()`. -/
def fieldToZodValidator (field : ParsedField) (options : FieldToZodOptions) :
    String :=
  let validator := fieldToZodBase field options
  if options.isUpdateSchema && !field.isId then validator ++ ".nullish()"
  else if field.isNullable && !field.isRequired then validator ++ ".nullish()"
  else if field.isNullable then validator ++ ".nullable()"
  else if !field.isRequired then validator ++ ".nullish()"
  else validator

/-- `makeImportsFromZod` (zod-schema.ts). -/
def makeImportsFromZod : List ImportStatementParams :=
  [{ from_ := "zod", destruct := ["z"] }]

/-- `collectEnumImports` (compute-zod-params.ts): one import from the prisma
client path naming every enum type appearing among the fields, in first-seen
order. -/
def collectEnumImports (fields : List ParsedField)
    (prismaClientImportPath : String) : List ImportStatementParams :=
  let enumTypes :=
    fields.foldl
      (fun acc f =>
        if f.kind == FieldKind.enum && !acc.contains f.type then
          acc ++ [f.type]
        else acc)
      []
  if enumTypes.isEmpty then []
  else [{ from_ := prismaClientImportPath, destruct := enumTypes }]

/- ------------------------------------------------------------------ -/
/- Representation Derivers (compute-zod-params.ts).                    -/
/- ------------------------------------------------------------------ -/

/-- Entity deriver, override computation for one field
(computeEntityZodParams, lines 99-102, 131-138 and 166-182): the three
sequential mutations of the `overrides` object. -/
def entityOverrides (model : Model) (rsf : List (String × List String))
    (field : Field) : Overrides :=
  let ov0 : Overrides :=
    { isRequired := some true, isNullable := some (!field.isRequired) }
  let ov1 :=
    if isRelation field then
      let isRelationRequired :=
        isAnnotatedWith field AnnotationTag.relationRequired
      { isRequired := some isRelationRequired,
        isNullable :=
          some
            (if field.isList then false
             else if field.isRequired then false
             else !isRelationRequired) }
    else ov0
  if (rsf.map (fun p => p.1)).contains field.name then
    let relationNames := ((rsf.find? (fun p => p.1 == field.name)).map
      (fun p => p.2)).getD []
    let isAnyRelationRequired :=
      relationNames.any fun rn =>
        match model.fields.find? (fun g => g.name == rn) with
        | none => false
        | some rf =>
            rf.isRequired ||
              isAnnotatedWith rf AnnotationTag.relationRequired
    { isRequired := some true, isNullable := some (!isAnyRelationRequired) }
  else ov1

/-- Entity deriver, imports contributed by one field
(computeEntityZodParams, lines 106-128 for embedded types and 141-160 for
relations): an import is pushed only for a non-self-referential field
without a custom-type tag whose target model is found in the registry. -/
def entityImports (model : Model) (allModels : List Model)
    (th : TemplateHelpers) (field : Field) : List ImportStatementParams :=
  (if isType field && field.type != model.name &&
      !hasCustomTypeOverride field then
     match allModels.find? (fun m => m.name == field.type) with
     | some m2 =>
         [{ from_ :=
              getRelativePath model.output.entity m2.output.dto ++ "/" ++
                th.plainZodSchemaFilename field.type false,
            destruct := [th.plainZodSchemaName field.type] }]
     | none => []
   else []) ++
  (if isRelation field && field.type != model.name &&
      !hasCustomTypeOverride field then
     match allModels.find? (fun m => m.name == field.type) with
     | some m2 =>
         [{ from_ :=
              getRelativePath model.output.entity m2.output.entity ++ "/" ++
                th.entityZodSchemaFilename field.type false,
            destruct := [th.entityZodSchemaName field.type] }]
     | none => []
   else [])

/-- Entity deriver, lazyRelations entries contributed by one field
(computeEntityZodParams, line 126 for embedded types and lines 161-163 for
relations): an embedded-type entry needs the target model found and the
field non-self-referential, while a relation entry is pushed for every
relation field without a custom-type tag. -/
def entityLazy (model : Model) (allModels : List Model) (field : Field) :
    List String :=
  (if isType field && field.type != model.name &&
      !hasCustomTypeOverride field then
     match allModels.find? (fun m => m.name == field.type) with
     | some _ => [field.type]
     | none => []
   else []) ++
  (if isRelation field && !hasCustomTypeOverride field then [field.type]
   else [])

/-- One iteration of the computeEntityZodParams reduce (lines 98-188):
hidden-from-entity fields contribute nothing; every other field appends its
materialized form, its imports and its lazyRelations entries. -/
def entityStep (model : Model) (allModels : List Model)
    (th : TemplateHelpers) (rsf : List (String × List String))
    (acc : List ParsedField × List ImportStatementParams × List String)
    (field : Field) :
    List ParsedField × List ImportStatementParams × List String :=
  if isAnnotatedWith field AnnotationTag.entityHidden then acc
  else
    (acc.1 ++ [mapDMMFToParsedField field (entityOverrides model rsf field)
        model.name],
     acc.2.1 ++ entityImports model allModels th field,
     acc.2.2 ++ entityLazy model allModels field)

/-- `computeEntityZodParams` (compute-zod-params.ts, lines 87-206). -/
def computeEntityZodParams (model : Model) (allModels : List Model)
    (th : TemplateHelpers) : ZodSchemaParams :=
  let rsf := getRelationScalars model.fields
  let r := model.fields.foldl (entityStep model allModels th rsf)
    ([], [], [])
  { model := model
    fields := r.1
    imports :=
      zipImportStatementParams
        (makeImportsFromZod ++
          collectEnumImports r.1 th.config.prismaClientImportPath ++ r.2.1)
    lazyRelations := r.2.2 }

/-- Plain deriver inclusion predicate (computePlainZodParams, lines
228-237): relations are skipped, and relation-scalar fields are skipped
unless annotated with the include-relation-id tag. -/
def plainIncluded (rsfNames : List String) (field : Field) : Bool :=
  !isRelation field &&
    (isAnnotatedWith field AnnotationTag.relationIncludeId ||
      !rsfNames.contains field.name)

/-- Plain deriver, imports contributed by one field (computePlainZodParams,
lines 239-261).  Note: unlike the entity deriver, the source has no
custom-type-override check here. -/
def plainImports (model : Model) (allModels : List Model)
    (th : TemplateHelpers) (field : Field) : List ImportStatementParams :=
  if isType field && field.type != model.name then
    match allModels.find? (fun m => m.name == field.type) with
    | some m2 =>
        [{ from_ :=
             getRelativePath model.output.dto m2.output.dto ++ "/" ++
               th.plainZodSchemaFilename field.type false,
           destruct := [th.plainZodSchemaName field.type] }]
    | none => []
  else []

/-- Plain deriver, lazyRelations entries contributed by one field
(computePlainZodParams, line 258). -/
def plainLazy (model : Model) (allModels : List Model) (field : Field) :
    List String :=
  if isType field && field.type != model.name then
    match allModels.find? (fun m => m.name == field.type) with
    | some _ => [field.type]
    | none => []
  else []

/-- One iteration of the computePlainZodParams reduce (lines 222-267). -/
def plainStep (model : Model) (allModels : List Model)
    (th : TemplateHelpers) (rsfNames : List String)
    (acc : List ParsedField × List ImportStatementParams × List String)
    (field : Field) :
    List ParsedField × List ImportStatementParams × List String :=
  if plainIncluded rsfNames field then
    (acc.1 ++ [mapDMMFToParsedField field
        { isRequired := some true, isNullable := some (!field.isRequired) }
        model.name],
     acc.2.1 ++ plainImports model allModels th field,
     acc.2.2 ++ plainLazy model allModels field)
  else acc

/-- `computePlainZodParams` (compute-zod-params.ts, lines 211-285). -/
def computePlainZodParams (model : Model) (allModels : List Model)
    (th : TemplateHelpers) : ZodSchemaParams :=
  let rsfNames := rsfNamesOf model.fields
  let r := model.fields.foldl (plainStep model allModels th rsfNames)
    ([], [], [])
  { model := model
    fields := r.1
    imports :=
      zipImportStatementParams
        (makeImportsFromZod ++
          collectEnumImports r.1 th.config.prismaClientImportPath ++ r.2.1)
    lazyRelations := r.2.2 }

/-- The in-place mutation shared by the create and update derivers
(computeCreateZodParams lines 304-309, computeUpdateZodParams lines
422-427): a relation-scalar field annotated with the include-relation-id
tag has its `isReadOnly` attribute set to false on the input field record. -/
def includeIdMutate (rsfNames : List String) (field : Field) : Field :=
  if isAnnotatedWith field AnnotationTag.relationIncludeId &&
      rsfNames.contains field.name then
    { field with isReadOnly := false }
  else field

/-- The state of the model field list after the create (or update) deriver
has run: the include-relation-id mutation applied to every field. -/
def createPostFields (model : Model) : List Field :=
  model.fields.map (includeIdMutate (rsfNamesOf model.fields))

/-- Create deriver omission predicate (computeCreateZodParams, lines
304-339): read-only (after the include-relation-id mutation), hidden from
create, relation, unannotated relation scalar; and, absent both create
override tags, id-with-default, updated-at timestamp, or
required-with-default with `showDefaultValues` off. -/
def createOmitted (th : TemplateHelpers) (rsfNames : List String)
    (field0 : Field) : Bool :=
  let field := includeIdMutate rsfNames field0
  isReadOnly field ||
  isAnnotatedWith field AnnotationTag.createHidden ||
  isRelation field ||
  (!isAnnotatedWith field AnnotationTag.relationIncludeId &&
    rsfNames.contains field.name) ||
  (!(isAnnotatedWith field AnnotationTag.createOptional ||
      isAnnotatedWith field AnnotationTag.createRequired) &&
    (isIdWithDefaultValue field || isUpdatedAt field ||
      (isRequiredWithDefaultValue field && !th.config.showDefaultValues)))

/-- Create deriver override computation (computeCreateZodParams, lines
325-350): required-with-default shown fields become optional, the create
override tags set the flag, and `isNullable` is the negation of the final
requiredness. -/
def createOverrides (th : TemplateHelpers) (field : Field) : Overrides :=
  let isDtoOptional :=
    isAnnotatedWith field AnnotationTag.createOptional ||
    isAnnotatedWith field AnnotationTag.createRequired
  let r0 : Option Bool :=
    if !isDtoOptional && isRequiredWithDefaultValue field &&
        th.config.showDefaultValues then some false
    else none
  let r1 :=
    if isAnnotatedWith field AnnotationTag.createOptional then some false
    else r0
  let r2 :=
    if isAnnotatedWith field AnnotationTag.createRequired then some true
    else r1
  { isRequired := r2,
    isNullable := some (!(field.isRequired || r2.getD false)) }

/-- Create deriver, imports contributed by one field (computeCreateZodParams,
lines 352-374).  Note: no custom-type-override check in the source. -/
def createImports (model : Model) (allModels : List Model)
    (th : TemplateHelpers) (field : Field) : List ImportStatementParams :=
  if isType field && field.type != model.name then
    match allModels.find? (fun m => m.name == field.type) with
    | some m2 =>
        [{ from_ :=
             getRelativePath model.output.dto m2.output.dto ++ "/" ++
               th.createZodSchemaFilename field.type false,
           destruct := [th.createZodSchemaName field.type] }]
    | none => []
  else []

/-- Create deriver, lazyRelations entries contributed by one field
(computeCreateZodParams, line 371). -/
def createLazy (model : Model) (allModels : List Model) (field : Field) :
    List String :=
  if isType field && field.type != model.name then
    match allModels.find? (fun m => m.name == field.type) with
    | some _ => [field.type]
    | none => []
  else []

/-- One iteration of the computeCreateZodParams reduce (lines 301-380). -/
def createStep (model : Model) (allModels : List Model)
    (th : TemplateHelpers) (rsfNames : List String)
    (acc : List ParsedField × List ImportStatementParams × List String)
    (field0 : Field) :
    List ParsedField × List ImportStatementParams × List String :=
  let field := includeIdMutate rsfNames field0
  if createOmitted th rsfNames field0 then acc
  else
    (acc.1 ++ [mapDMMFToParsedField field (createOverrides th field)
        model.name],
     acc.2.1 ++ createImports model allModels th field,
     acc.2.2 ++ createLazy model allModels field)

/-- `computeCreateZodParams` (compute-zod-params.ts, lines 290-398). -/
def computeCreateZodParams (model : Model) (allModels : List Model)
    (th : TemplateHelpers) : ZodSchemaParams :=
  let rsfNames := rsfNamesOf model.fields
  let r := model.fields.foldl (createStep model allModels th rsfNames)
    ([], [], [])
  { model := model
    fields := r.1
    imports :=
      zipImportStatementParams
        (makeImportsFromZod ++
          collectEnumImports r.1 th.config.prismaClientImportPath ++ r.2.1)
    lazyRelations := r.2.2 }

/-- Update deriver omission predicate (computeUpdateZodParams, lines
422-442): read-only (after the include-relation-id mutation), hidden from
update, id (ids are not updatable), relation, unannotated relation
scalar. -/
def updateOmitted (rsfNames : List String) (field0 : Field) : Bool :=
  let field := includeIdMutate rsfNames field0
  isReadOnly field ||
  isAnnotatedWith field AnnotationTag.updateHidden ||
  isId field ||
  isRelation field ||
  (!isAnnotatedWith field AnnotationTag.relationIncludeId &&
    rsfNames.contains field.name)

/-- Update deriver override computation (computeUpdateZodParams, lines
416-420 and 444-447): blanket optional+nullable unless the required-in-update
tag forces required and non-nullable. -/
def updateOverrides (field : Field) : Overrides :=
  if isAnnotatedWith field AnnotationTag.updateRequired then
    { isRequired := some true, isNullable := some false }
  else { isRequired := some false, isNullable := some true }

/-- Update deriver, imports contributed by one field (computeUpdateZodParams,
lines 449-471).  Note: no custom-type-override check in the source. -/
def updateImports (model : Model) (allModels : List Model)
    (th : TemplateHelpers) (field : Field) : List ImportStatementParams :=
  if isType field && field.type != model.name then
    match allModels.find? (fun m => m.name == field.type) with
    | some m2 =>
        [{ from_ :=
             getRelativePath model.output.dto m2.output.dto ++ "/" ++
               th.updateZodSchemaFilename field.type false,
           destruct := [th.updateZodSchemaName field.type] }]
    | none => []
  else []

/-- Update deriver, lazyRelations entries contributed by one field
(computeUpdateZodParams, line 468). -/
def updateLazy (model : Model) (allModels : List Model) (field : Field) :
    List String :=
  if isType field && field.type != model.name then
    match allModels.find? (fun m => m.name == field.type) with
    | some _ => [field.type]
    | none => []
  else []

/-- One iteration of the computeUpdateZodParams reduce (lines 415-477). -/
def updateStep (model : Model) (allModels : List Model)
    (th : TemplateHelpers) (rsfNames : List String)
    (acc : List ParsedField × List ImportStatementParams × List String)
    (field0 : Field) :
    List ParsedField × List ImportStatementParams × List String :=
  let field := includeIdMutate rsfNames field0
  if updateOmitted rsfNames field0 then acc
  else
    (acc.1 ++ [mapDMMFToParsedField field (updateOverrides field)
        model.name],
     acc.2.1 ++ updateImports model allModels th field,
     acc.2.2 ++ updateLazy model allModels field)

/-- `computeUpdateZodParams` (compute-zod-params.ts, lines 404-495). -/
def computeUpdateZodParams (model : Model) (allModels : List Model)
    (th : TemplateHelpers) : ZodSchemaParams :=
  let rsfNames := rsfNamesOf model.fields
  let r := model.fields.foldl (updateStep model allModels th rsfNames)
    ([], [], [])
  { model := model
    fields := r.1
    imports :=
      zipImportStatementParams
        (makeImportsFromZod ++
          collectEnumImports r.1 th.config.prismaClientImportPath ++ r.2.1)
    lazyRelations := r.2.2 }

/-- Connect deriver candidate selection (computeConnectZodParams, lines
507-520): non-connect-hidden id fields, then non-connect-hidden unique
fields deduplicated by name. -/
def connectCandidates (model : Model) : List Field :=
  let idFields :=
    model.fields.filter fun f =>
      !isAnnotatedWith f AnnotationTag.connectHidden && isId f
  let uniqueFields :=
    model.fields.filter fun f =>
      !isAnnotatedWith f AnnotationTag.connectHidden && isUnique f
  uniqueFields.foldl
    (fun acc f =>
      if acc.any (fun g => g.name == f.name) then acc else acc ++ [f])
    idFields

/-- `computeConnectZodParams` (compute-zod-params.ts, lines 500-546): with
more than one id-or-unique candidate all candidates are forced optional and
non-nullable, otherwise no override is applied. -/
def computeConnectZodParams (model : Model) (th : TemplateHelpers) :
    ZodSchemaParams :=
  let cands := connectCandidates model
  let ov : Overrides :=
    if cands.length > 1 then
      { isRequired := some false, isNullable := some false }
    else { isRequired := none, isNullable := none }
  let fields := cands.map fun f => mapDMMFToParsedField f ov model.name
  { model := model
    fields := fields
    imports :=
      zipImportStatementParams
        (makeImportsFromZod ++
          collectEnumImports fields th.config.prismaClientImportPath)
    lazyRelations := [] }

/-- Per-model bundle of all five Zod derivers
(`computeZodModelParams`). -/
structure ZodModelParams where
  connect : ZodSchemaParams
  create : ZodSchemaParams
  update : ZodSchemaParams
  entity : ZodSchemaParams
  plain : ZodSchemaParams
  deriving DecidableEq, BEq, Repr

/-- `computeZodModelParams` (compute-zod-params.ts, lines 557-567). -/
def computeZodModelParams (model : Model) (allModels : List Model)
    (th : TemplateHelpers) : ZodModelParams :=
  { connect := computeConnectZodParams model th
    create := computeCreateZodParams model allModels th
    update := computeUpdateZodParams model allModels th
    entity := computeEntityZodParams model allModels th
    plain := computePlainZodParams model allModels th }

/-- Per-type bundle of the three derivers that apply to embedded types
(`computeZodTypeParams`). -/
structure ZodTypeParams where
  create : ZodSchemaParams
  update : ZodSchemaParams
  plain : ZodSchemaParams
  deriving DecidableEq, BEq, Repr

/-- `computeZodTypeParams` (compute-zod-params.ts, lines 572-580). -/
def computeZodTypeParams (model : Model) (allModels : List Model)
    (th : TemplateHelpers) : ZodTypeParams :=
  { create := computeCreateZodParams model allModels th
    update := computeUpdateZodParams model allModels th
    plain := computePlainZodParams model allModels th }

/- ------------------------------------------------------------------ -/
/- Orchestrator (src/generator/index.ts, `run`).                       -/
/- ------------------------------------------------------------------ -/

/-- A model or embedded type as handed over by the schema-loading
collaborator, before the orchestrator attaches output locations. -/
structure DmmfModel where
  name : String
  fields : List Field
  documentation : List AnnotationTag
  deriving DecidableEq, BEq, Repr

/-- The resolved registry consumed by `run` (spec section 6): models,
embedded types and enum names. -/
structure DmmfDocument where
  models : List DmmfModel
  types : List DmmfModel
  enums : List String
  deriving DecidableEq, BEq, Repr

/-- The content slot of an output file specification.  Modelled from the
spec: section 1 places the text-template rendering of final output files out
of scope, so content is represented by which generator produced the file and
with which parameters, not by rendered text. -/
inductive FileContent where
  | connectDto (model : String)
  | createDto (model : String)
  | updateDto (model : String)
  | entityDto (model : String)
  | plainDto (model : String)
  | enums
  | connectZod (p : ZodSchemaParams)
  | createZod (p : ZodSchemaParams)
  | updateZod (p : ZodSchemaParams)
  | plainZod (p : ZodSchemaParams)
  | entityZod (p : ZodSchemaParams)
  deriving DecidableEq, BEq, Repr

/-- An output file specification (`WriteableFileSpecs`). -/
structure WriteableFileSpecs where
  fileName : String
  content : FileContent
  deriving DecidableEq, BEq, Repr

/-- The configuration surface of `run` relevant to the verified control flow
(index.ts `RunParam`); the template helpers stand in for the `makeHelpers`
construction, which is modelled from the spec. -/
structure RunParam where
  output : String
  dmmf : DmmfDocument
  outputToNestJsResourceStructure : Bool
  flatResourceStructure : Bool
  noDependencies : Bool
  generateFileTypes : String
  generateZodSchemas : Bool
  templateHelpers : TemplateHelpers
  transformFileNameCase : String → String

/-- DTO output directory of a model (index.ts, lines 110-118 and
133-138). -/
def dtoOutputDir (p : RunParam) (name : String) : String :=
  if p.outputToNestJsResourceStructure then
    if p.flatResourceStructure then
      p.output ++ "/" ++ p.transformFileNameCase name
    else p.output ++ "/" ++ p.transformFileNameCase name ++ "/dto"
  else p.output

/-- Entity output directory of a model (index.ts, lines 139-144). -/
def entityOutputDir (p : RunParam) (name : String) : String :=
  if p.outputToNestJsResourceStructure then
    if p.flatResourceStructure then
      p.output ++ "/" ++ p.transformFileNameCase name
    else p.output ++ "/" ++ p.transformFileNameCase name ++ "/entities"
  else p.output

/-- Attach output locations to an embedded type (index.ts, lines 106-118):
types get a DTO slot and an empty entity slot. -/
def toTypeModel (p : RunParam) (m : DmmfModel) : Model :=
  { name := m.name
    fields := m.fields
    documentation := m.documentation
    output := { dto := dtoOutputDir p m.name, entity := "" } }

/-- Attach output locations to a model (index.ts, lines 126-145). -/
def toModel (p : RunParam) (m : DmmfModel) : Model :=
  { name := m.name
    fields := m.fields
    documentation := m.documentation
    output :=
      { dto := dtoOutputDir p m.name, entity := entityOutputDir p m.name } }

/-- Non-ignored embedded types with their output locations (index.ts,
lines 106-118). -/
def filteredTypesOf (p : RunParam) : List Model :=
  (p.dmmf.types.filter
    (fun m => !m.documentation.contains AnnotationTag.ignoreModel)).map
    (toTypeModel p)

/-- Non-ignored models with their output locations (index.ts,
lines 126-145). -/
def filteredModelsOf (p : RunParam) : List Model :=
  (p.dmmf.models.filter
    (fun m => !m.documentation.contains AnnotationTag.ignoreModel)).map
    (toModel p)

/-- Output files for one embedded type (index.ts, lines 158-250): the three
DTO files, plus the three Zod schema files when enabled. -/
def typeFilesFor (p : RunParam) (filteredTypes : List Model) (model : Model) :
    List WriteableFileSpecs :=
  let th := p.templateHelpers
  let base : List WriteableFileSpecs :=
    [{ fileName :=
         model.output.dto ++ "/" ++ th.createDtoFilename model.name true,
       content := FileContent.createDto model.name },
     { fileName :=
         model.output.dto ++ "/" ++ th.updateDtoFilename model.name true,
       content := FileContent.updateDto model.name },
     { fileName :=
         model.output.dto ++ "/" ++ th.plainDtoFilename model.name true,
       content := FileContent.plainDto model.name }]
  if p.generateZodSchemas then
    let zp := computeZodTypeParams model filteredTypes th
    base ++
      [{ fileName :=
           model.output.dto ++ "/" ++
             th.createZodSchemaFilename model.name true,
         content := FileContent.createZod zp.create },
       { fileName :=
           model.output.dto ++ "/" ++
             th.updateZodSchemaFilename model.name true,
         content := FileContent.updateZod zp.update },
       { fileName :=
           model.output.dto ++ "/" ++
             th.plainZodSchemaFilename model.name true,
         content := FileContent.plainZod zp.plain }]
  else base

/-- Output files for one model (index.ts, lines 252-416): the
`generateFileTypes` switch selects the DTO/entity files, an unknown value
throws, and the Zod schema files are appended when enabled. -/
def modelFilesFor (p : RunParam) (allModels : List Model) (model : Model) :
    Except String (List WriteableFileSpecs) :=
  let th := p.templateHelpers
  let connectDto : WriteableFileSpecs :=
    { fileName :=
        model.output.dto ++ "/" ++ th.connectDtoFilename model.name true,
      content := FileContent.connectDto model.name }
  let createDto : WriteableFileSpecs :=
    { fileName :=
        model.output.dto ++ "/" ++ th.createDtoFilename model.name true,
      content := FileContent.createDto model.name }
  let updateDto : WriteableFileSpecs :=
    { fileName :=
        model.output.dto ++ "/" ++ th.updateDtoFilename model.name true,
      content := FileContent.updateDto model.name }
  let entity : WriteableFileSpecs :=
    { fileName :=
        model.output.entity ++ "/" ++ th.entityFilename model.name true,
      content := FileContent.entityDto model.name }
  let plainDto : WriteableFileSpecs :=
    { fileName :=
        model.output.dto ++ "/" ++ th.plainDtoFilename model.name true,
      content := FileContent.plainDto model.name }
  let baseFiles : Except String (List WriteableFileSpecs) :=
    if p.generateFileTypes == "all" then
      Except.ok [connectDto, createDto, updateDto, entity, plainDto]
    else if p.generateFileTypes == "dto" then
      Except.ok [connectDto, createDto, updateDto, plainDto]
    else if p.generateFileTypes == "entity" then Except.ok [entity]
    else Except.error "Unknown generateFileTypes value."
  match baseFiles with
  | Except.error e => Except.error e
  | Except.ok files =>
      if p.generateZodSchemas then
        let zp := computeZodModelParams model allModels th
        let files :=
          files ++
            (if p.generateFileTypes != "entity" then
               [{ fileName :=
                    model.output.dto ++ "/" ++
                      th.connectZodSchemaFilename model.name true,
                  content := FileContent.connectZod zp.connect },
                { fileName :=
                    model.output.dto ++ "/" ++
                      th.createZodSchemaFilename model.name true,
                  content := FileContent.createZod zp.create },
                { fileName :=
                    model.output.dto ++ "/" ++
                      th.updateZodSchemaFilename model.name true,
                  content := FileContent.updateZod zp.update },
                { fileName :=
                    model.output.dto ++ "/" ++
                      th.plainZodSchemaFilename model.name true,
                  content := FileContent.plainZod zp.plain }]
             else [])
        let files :=
          files ++
            (if p.generateFileTypes == "all" ||
                p.generateFileTypes == "entity" then
               [{ fileName :=
                    model.output.entity ++ "/" ++
                      th.entityZodSchemaFilename model.name true,
                  content := FileContent.entityZod zp.entity }]
             else [])
        Except.ok files
      else Except.ok files

/-- Error-propagating map over the model list: the synchronous TS loop stops
at the first thrown error. -/
def mapExcept (f : Model → Except String (List WriteableFileSpecs)) :
    List Model → Except String (List (List WriteableFileSpecs))
  | [] => Except.ok []
  | m :: rest =>
      match f m with
      | Except.error e => Except.error e
      | Except.ok files =>
          match mapExcept f rest with
          | Except.error e => Except.error e
          | Except.ok others => Except.ok (files :: others)

/-- `run` (index.ts, lines 56-419): abort when entity-only output is
requested while embedded types exist (lines 120-124), otherwise produce the
type files, the model files (where an unknown `generateFileTypes` value
throws inside the per-model switch, lines 327-340) and the enum file. -/
def run (p : RunParam) : Except String (List WriteableFileSpecs) :=
  let filteredTypes := filteredTypesOf p
  if p.generateFileTypes == "entity" && !filteredTypes.isEmpty then
    Except.error
      "Generating only Entity files while having complex types is not possible. Set generateFileTypes to all or dto."
  else
    let filteredModels := filteredModelsOf p
    let enumFiles : List WriteableFileSpecs :=
      if p.noDependencies && !p.dmmf.enums.isEmpty then
        [{ fileName := p.output ++ "/enums.ts", content := FileContent.enums }]
      else []
    let typeFiles :=
      (filteredTypes.map (typeFilesFor p filteredTypes)).flatten
    match
      mapExcept (modelFilesFor p (filteredTypes ++ filteredModels))
        filteredModels
    with
    | Except.error e => Except.error e
    | Except.ok modelFiles =>
        Except.ok (typeFiles ++ modelFiles.flatten ++ enumFiles)

/-- True iff a run completed without aborting. -/
def runOk (r : Except String (List WriteableFileSpecs)) : Bool :=
  match r with
  | Except.ok _ => true
  | Except.error _ => false

/-- The files of a completed run (empty for an aborted run). -/
def runFiles (r : Except String (List WriteableFileSpecs)) :
    List WriteableFileSpecs :=
  match r with
  | Except.ok l => l
  | Except.error _ => []

/- ------------------------------------------------------------------ -/
/- Concrete fixtures used by counterexamples and witnesses.            -/
/- ------------------------------------------------------------------ -/

/-- A baseline scalar field; concrete fixtures below override single
attributes. -/
def baseField : Field :=
  { name := "f"
    type := "String"
    kind := FieldKind.scalar
    isList := false
    isRequired := true
    isId := false
    isUnique := false
    isReadOnly := false
    isUpdatedAt := false
    default := none
    relationName := none
    relationFromFields := []
    documentation := [] }

/-- Concrete template helpers used by the fixtures. -/
def th0 : TemplateHelpers :=
  { entityZodSchemaName := fun n => "E" ++ n
    plainZodSchemaName := fun n => "P" ++ n
    createZodSchemaName := fun n => "C" ++ n
    updateZodSchemaName := fun n => "U" ++ n
    connectZodSchemaName := fun n => "N" ++ n
    entityZodSchemaFilename := fun n _ => "e-" ++ n
    plainZodSchemaFilename := fun n _ => "p-" ++ n
    createZodSchemaFilename := fun n _ => "c-" ++ n
    updateZodSchemaFilename := fun n _ => "u-" ++ n
    connectZodSchemaFilename := fun n _ => "n-" ++ n
    connectDtoFilename := fun n _ => "nd-" ++ n
    createDtoFilename := fun n _ => "cd-" ++ n
    updateDtoFilename := fun n _ => "ud-" ++ n
    plainDtoFilename := fun n _ => "pd-" ++ n
    entityFilename := fun n _ => "en-" ++ n
    config :=
      { prismaClientImportPath := "@prisma/client"
        showDefaultValues := false } }

/-- Fixture for the update-representation claims: a schema-required String
scalar field tagged required-in-update. -/
def updateTaggedField : Field :=
  { baseField with
      name := "title"
      documentation := [AnnotationTag.updateRequired] }

/-- Fixture model owning `updateTaggedField`. -/
def M1 : Model :=
  { name := "Post"
    fields := [updateTaggedField]
    documentation := []
    output := { dto := "o/post/dto", entity := "o/post/entities" } }

/-- Compiler options used when rendering an update schema
(generate-zod-schema.ts passes `isUpdateSchema: true`). -/
def updOpts : FieldToZodOptions :=
  { schemaName := some (fun n => "U" ++ n), isUpdateSchema := true }

/-- The single parsed field the update deriver produces for `M1`. -/
def pf1 : ParsedField :=
  mapDMMFToParsedField updateTaggedField
    { isRequired := some true, isNullable := some false } "Post"

/-- Fixture for the entity claim: a schema-optional scalar field. -/
def optionalScalarField : Field :=
  { baseField with name := "nickname", isRequired := false }

/-- Fixture model owning `optionalScalarField`. -/
def M2 : Model :=
  { name := "User"
    fields := [optionalScalarField]
    documentation := []
    output := { dto := "o/user/dto", entity := "o/user/entities" } }

/-- Fixture for the connect claim: a schema-optional unique field (no id). -/
def optionalUniqueField : Field :=
  { baseField with name := "handle", isUnique := true, isRequired := false }

/-- Fixture model whose only id-or-unique candidate is `optionalUniqueField`. -/
def M8 : Model :=
  { name := "Account"
    fields := [optionalUniqueField]
    documentation := []
    output := { dto := "o/account/dto", entity := "o/account/entities" } }

/-- Fixture: a schema-required unique field (no id). -/
def requiredUniqueField : Field :=
  { baseField with name := "email", isUnique := true }

/-- Fixture model whose only id-or-unique candidate is `requiredUniqueField`. -/
def M8b : Model :=
  { name := "Subscriber"
    fields := [requiredUniqueField]
    documentation := []
    output := { dto := "o/subscriber/dto", entity := "o/subscriber/entities" } }

/-- Fixture for the mutation claim: a relation field whose foreign key is
`authorId`. -/
def authorRelationField : Field :=
  { baseField with
      name := "author"
      type := "User"
      kind := FieldKind.object
      relationName := some "AuthorRel"
      relationFromFields := ["authorId"] }

/-- Fixture: the read-only foreign-key scalar backing `author`, annotated
with the include-relation-id tag. -/
def authorIdField : Field :=
  { baseField with
      name := "authorId"
      isReadOnly := true
      documentation := [AnnotationTag.relationIncludeId] }

/-- Fixture model owning `authorRelationField` and `authorIdField`. -/
def M3 : Model :=
  { name := "Article"
    fields := [authorRelationField, authorIdField]
    documentation := []
    output := { dto := "o/article/dto", entity := "o/article/entities" } }

/-- Fixture: an embedded-type field carrying the custom-type-override tag. -/
def overriddenTypeField : Field :=
  { baseField with
      name := "meta"
      type := "Meta"
      kind := FieldKind.object
      documentation := [AnnotationTag.overrideType] }

/-- Fixture: the embedded type `Meta` present in the registry. -/
def MMeta : Model :=
  { name := "Meta"
    fields := [baseField]
    documentation := []
    output := { dto := "o/meta/dto", entity := "" } }

/-- Fixture model owning `overriddenTypeField`. -/
def M5 : Model :=
  { name := "Doc"
    fields := [overriddenTypeField]
    documentation := []
    output := { dto := "o/doc/dto", entity := "o/doc/entities" } }

/-- Fixture: a self-referential relation field. -/
def managerField : Field :=
  { baseField with
      name := "manager"
      type := "Employee"
      kind := FieldKind.object
      relationName := some "Mgr" }

/-- Fixture model owning the self-referential `managerField`. -/
def M6 : Model :=
  { name := "Employee"
    fields := [managerField]
    documentation := []
    output := { dto := "o/employee/dto", entity := "o/employee/entities" } }

/-- Fixture: an auto-increment id field without create override tags. -/
def autoIdField : Field :=
  { baseField with
      name := "id"
      isId := true
      default := some (DefaultValue.named "autoincrement") }

/-- The same auto-increment id field, additionally tagged create-required. -/
def autoIdRequiredField : Field :=
  { autoIdField with documentation := [AnnotationTag.createRequired] }

/-- Fixture model owning `autoIdField`. -/
def M7 : Model :=
  { name := "Job"
    fields := [autoIdField]
    documentation := []
    output := { dto := "o/job/dto", entity := "o/job/entities" } }

/-- Fixture model owning `autoIdRequiredField`. -/
def M7b : Model :=
  { name := "Task"
    fields := [autoIdRequiredField]
    documentation := []
    output := { dto := "o/task/dto", entity := "o/task/entities" } }

/-- Fixture registry with one embedded type and no models. -/
def typeOnlyDmmf : DmmfDocument :=
  { models := []
    types := [{ name := "Meta", fields := [baseField], documentation := [] }]
    enums := [] }

/-- Fixture run configuration: unknown output-file-type mode over a registry
with one embedded type and no models. -/
def p9c : RunParam :=
  { output := "out"
    dmmf := typeOnlyDmmf
    outputToNestJsResourceStructure := false
    flatResourceStructure := false
    noDependencies := false
    generateFileTypes := "bogus"
    generateZodSchemas := false
    templateHelpers := th0
    transformFileNameCase := fun n => n }

/-- Fixture run configuration: unknown output-file-type mode over a registry
with one model. -/
def p9w : RunParam :=
  { p9c with
      dmmf :=
        { models := [{ name := "User", fields := [baseField], documentation := [] }]
          types := []
          enums := [] } }

/- ------------------------------------------------------------------ -/
/- Generic lemmas about the deriver folds.                             -/
/- ------------------------------------------------------------------ -/

/-- Elements already in the projected accumulator survive a fold whose step
only ever appends to the projection. -/
theorem mem_proj_foldl_of_mono {σ α β : Type} (proj : σ → List β)
    (step : σ → α → σ)
    (hmono : ∀ s a, ∃ t, proj (step s a) = proj s ++ t)
    (l : List α) (s : σ) (b : β) (hb : b ∈ proj s) :
    b ∈ proj (l.foldl step s) := by
  induction l generalizing s with
  | nil => exact hb
  | cons a l ih =>
    obtain ⟨t, ht⟩ := hmono s a
    exact ih (step s a) (by rw [ht]; exact List.mem_append_left t hb)

/-- If processing a particular list element always contributes `b` to the
projection, then `b` is in the final projection. -/
theorem mem_foldl_of_contrib {σ α β : Type} (proj : σ → List β)
    (step : σ → α → σ)
    (hmono : ∀ s a, ∃ t, proj (step s a) = proj s ++ t)
    (l : List α) (a : α) (b : β)
    (hb : ∀ s, b ∈ proj (step s a)) :
    ∀ s, a ∈ l → b ∈ proj (l.foldl step s) := by
  induction l with
  | nil => intro s h; cases h
  | cons x l ih =>
    intro s ha
    rcases List.mem_cons.mp ha with h | h
    · subst h
      exact mem_proj_foldl_of_mono proj step hmono l (step s a) b (hb s)
    · exact ih (step s x) h

/-- Every element of the final projection either was in the initial one or
was contributed by some list element satisfying `Q`. -/
theorem foldl_proj_invariant {σ α β : Type} (proj : σ → List β)
    (step : σ → α → σ) (Q : α → β → Prop)
    (hstep : ∀ s a b, b ∈ proj (step s a) → b ∈ proj s ∨ Q a b)
    (l : List α) :
    ∀ (s : σ) (b : β), b ∈ proj (l.foldl step s) →
      b ∈ proj s ∨ ∃ a ∈ l, Q a b := by
  induction l with
  | nil => intro s b hb; exact Or.inl hb
  | cons x l ih =>
    intro s b hb
    rcases ih (step s x) b hb with h | ⟨a, ha, hq⟩
    · rcases hstep s x b h with h2 | hq
      · exact Or.inl h2
      · exact Or.inr ⟨x, List.mem_cons_self x l, hq⟩
    · exact Or.inr ⟨a, List.mem_cons_of_mem x ha, hq⟩

/-- A fold is unchanged by premapping the list with a function the step
cannot observe. -/
theorem foldl_map_eq {σ α : Type} (step : σ → α → σ) (μ : α → α)
    (h : ∀ s a, step s (μ a) = step s a) (l : List α) :
    ∀ s : σ, (l.map μ).foldl step s = l.foldl step s := by
  induction l with
  | nil => intro s; rfl
  | cons x l ih =>
    intro s
    simp only [List.map_cons, List.foldl_cons, h]
    exact ih (step s x)

/- ------------------------------------------------------------------ -/
/- Projection lemmas.                                                  -/
/- ------------------------------------------------------------------ -/

theorem includeIdMutate_name (ns : List String) (f : Field) :
    (includeIdMutate ns f).name = f.name := by
  unfold includeIdMutate; split <;> rfl

theorem includeIdMutate_type (ns : List String) (f : Field) :
    (includeIdMutate ns f).type = f.type := by
  unfold includeIdMutate; split <;> rfl

theorem includeIdMutate_kind (ns : List String) (f : Field) :
    (includeIdMutate ns f).kind = f.kind := by
  unfold includeIdMutate; split <;> rfl

theorem includeIdMutate_isId (ns : List String) (f : Field) :
    (includeIdMutate ns f).isId = f.isId := by
  unfold includeIdMutate; split <;> rfl

theorem includeIdMutate_isList (ns : List String) (f : Field) :
    (includeIdMutate ns f).isList = f.isList := by
  unfold includeIdMutate; split <;> rfl

theorem includeIdMutate_isRequired (ns : List String) (f : Field) :
    (includeIdMutate ns f).isRequired = f.isRequired := by
  unfold includeIdMutate; split <;> rfl

theorem includeIdMutate_isUnique (ns : List String) (f : Field) :
    (includeIdMutate ns f).isUnique = f.isUnique := by
  unfold includeIdMutate; split <;> rfl

theorem includeIdMutate_isUpdatedAt (ns : List String) (f : Field) :
    (includeIdMutate ns f).isUpdatedAt = f.isUpdatedAt := by
  unfold includeIdMutate; split <;> rfl

theorem includeIdMutate_default (ns : List String) (f : Field) :
    (includeIdMutate ns f).default = f.default := by
  unfold includeIdMutate; split <;> rfl

theorem includeIdMutate_relationName (ns : List String) (f : Field) :
    (includeIdMutate ns f).relationName = f.relationName := by
  unfold includeIdMutate; split <;> rfl

theorem includeIdMutate_relationFromFields (ns : List String) (f : Field) :
    (includeIdMutate ns f).relationFromFields = f.relationFromFields := by
  unfold includeIdMutate; split <;> rfl

theorem includeIdMutate_documentation (ns : List String) (f : Field) :
    (includeIdMutate ns f).documentation = f.documentation := by
  unfold includeIdMutate; split <;> rfl

theorem mapDMMF_isId (f : Field) (o : Overrides) (m : String) :
    (mapDMMFToParsedField f o m).isId = f.isId := rfl

theorem mapDMMF_name (f : Field) (o : Overrides) (m : String) :
    (mapDMMFToParsedField f o m).name = f.name := rfl

theorem mapDMMF_kind (f : Field) (o : Overrides) (m : String) :
    (mapDMMFToParsedField f o m).kind = f.kind := rfl

theorem mapDMMF_isList (f : Field) (o : Overrides) (m : String) :
    (mapDMMFToParsedField f o m).isList = f.isList := rfl

theorem mapDMMF_relationName (f : Field) (o : Overrides) (m : String) :
    (mapDMMFToParsedField f o m).relationName = f.relationName := rfl

theorem mapDMMF_documentation (f : Field) (o : Overrides) (m : String) :
    (mapDMMFToParsedField f o m).documentation = f.documentation := rfl

theorem mapDMMF_isRequired (f : Field) (o : Overrides) (m : String) :
    (mapDMMFToParsedField f o m).isRequired = o.isRequired.getD f.isRequired :=
  rfl

theorem mapDMMF_isNullable (f : Field) (o : Overrides) (m : String) :
    (mapDMMFToParsedField f o m).isNullable = o.isNullable.getD false := rfl

/- ------------------------------------------------------------------ -/
/- Step characterization lemmas.                                       -/
/- ------------------------------------------------------------------ -/

theorem updateStep_char (model : Model) (allModels : List Model)
    (th : TemplateHelpers) (ns : List String)
    (acc : List ParsedField × List ImportStatementParams × List String)
    (f : Field) :
    (updateOmitted ns f = true ∧
      updateStep model allModels th ns acc f = acc) ∨
    (updateOmitted ns f = false ∧
      updateStep model allModels th ns acc f =
        (acc.1 ++ [mapDMMFToParsedField (includeIdMutate ns f)
            (updateOverrides (includeIdMutate ns f)) model.name],
         acc.2.1 ++ updateImports model allModels th (includeIdMutate ns f),
         acc.2.2 ++ updateLazy model allModels (includeIdMutate ns f))) := by
  by_cases h : updateOmitted ns f = true
  · exact Or.inl ⟨h, by simp [updateStep, h]⟩
  · refine Or.inr ⟨by simpa using h, ?_⟩
    simp [updateStep, h]

theorem createStep_char (model : Model) (allModels : List Model)
    (th : TemplateHelpers) (ns : List String)
    (acc : List ParsedField × List ImportStatementParams × List String)
    (f : Field) :
    (createOmitted th ns f = true ∧
      createStep model allModels th ns acc f = acc) ∨
    (createOmitted th ns f = false ∧
      createStep model allModels th ns acc f =
        (acc.1 ++ [mapDMMFToParsedField (includeIdMutate ns f)
            (createOverrides th (includeIdMutate ns f)) model.name],
         acc.2.1 ++ createImports model allModels th (includeIdMutate ns f),
         acc.2.2 ++ createLazy model allModels (includeIdMutate ns f))) := by
  by_cases h : createOmitted th ns f = true
  · exact Or.inl ⟨h, by simp [createStep, h]⟩
  · refine Or.inr ⟨by simpa using h, ?_⟩
    simp [createStep, h]

theorem entityStep_char (model : Model) (allModels : List Model)
    (th : TemplateHelpers) (rsf : List (String × List String))
    (acc : List ParsedField × List ImportStatementParams × List String)
    (f : Field) :
    (isAnnotatedWith f AnnotationTag.entityHidden = true ∧
      entityStep model allModels th rsf acc f = acc) ∨
    (isAnnotatedWith f AnnotationTag.entityHidden = false ∧
      entityStep model allModels th rsf acc f =
        (acc.1 ++ [mapDMMFToParsedField f (entityOverrides model rsf f)
            model.name],
         acc.2.1 ++ entityImports model allModels th f,
         acc.2.2 ++ entityLazy model allModels f)) := by
  by_cases h : isAnnotatedWith f AnnotationTag.entityHidden = true
  · exact Or.inl ⟨h, by simp [entityStep, h]⟩
  · refine Or.inr ⟨by simpa using h, ?_⟩
    simp [entityStep, h]

theorem plainStep_char (model : Model) (allModels : List Model)
    (th : TemplateHelpers) (ns : List String)
    (acc : List ParsedField × List ImportStatementParams × List String)
    (f : Field) :
    (plainIncluded ns f = false ∧
      plainStep model allModels th ns acc f = acc) ∨
    (plainIncluded ns f = true ∧
      plainStep model allModels th ns acc f =
        (acc.1 ++ [mapDMMFToParsedField f
            { isRequired := some true, isNullable := some (!f.isRequired) }
            model.name],
         acc.2.1 ++ plainImports model allModels th f,
         acc.2.2 ++ plainLazy model allModels f)) := by
  by_cases h : plainIncluded ns f = true
  · refine Or.inr ⟨h, ?_⟩
    simp [plainStep, h]
  · exact Or.inl ⟨by simpa using h, by simp [plainStep, h]⟩

theorem entityStep_mono (model : Model) (allModels : List Model)
    (th : TemplateHelpers) (rsf : List (String × List String))
    (s : List ParsedField × List ImportStatementParams × List String)
    (a : Field) :
    ∃ t, (entityStep model allModels th rsf s a).1 = s.1 ++ t := by
  rcases entityStep_char model allModels th rsf s a with ⟨_, heq⟩ | ⟨_, heq⟩
  · exact ⟨[], by rw [heq]; simp⟩
  · exact ⟨[mapDMMFToParsedField a (entityOverrides model rsf a) model.name],
      by rw [heq]⟩

theorem plainStep_mono (model : Model) (allModels : List Model)
    (th : TemplateHelpers) (ns : List String)
    (s : List ParsedField × List ImportStatementParams × List String)
    (a : Field) :
    ∃ t, (plainStep model allModels th ns s a).1 = s.1 ++ t := by
  rcases plainStep_char model allModels th ns s a with ⟨_, heq⟩ | ⟨_, heq⟩
  · exact ⟨[], by rw [heq]; simp⟩
  · exact ⟨[mapDMMFToParsedField a
      { isRequired := some true, isNullable := some (!a.isRequired) }
      model.name], by rw [heq]⟩

theorem createStep_mono (model : Model) (allModels : List Model)
    (th : TemplateHelpers) (ns : List String)
    (s : List ParsedField × List ImportStatementParams × List String)
    (a : Field) :
    ∃ t, (createStep model allModels th ns s a).1 = s.1 ++ t := by
  rcases createStep_char model allModels th ns s a with ⟨_, heq⟩ | ⟨_, heq⟩
  · exact ⟨[], by rw [heq]; simp⟩
  · exact ⟨[mapDMMFToParsedField (includeIdMutate ns a)
      (createOverrides th (includeIdMutate ns a)) model.name], by rw [heq]⟩

theorem updateStep_mono (model : Model) (allModels : List Model)
    (th : TemplateHelpers) (ns : List String)
    (s : List ParsedField × List ImportStatementParams × List String)
    (a : Field) :
    ∃ t, (updateStep model allModels th ns s a).1 = s.1 ++ t := by
  rcases updateStep_char model allModels th ns s a with ⟨_, heq⟩ | ⟨_, heq⟩
  · exact ⟨[], by rw [heq]; simp⟩
  · exact ⟨[mapDMMFToParsedField (includeIdMutate ns a)
      (updateOverrides (includeIdMutate ns a)) model.name], by rw [heq]⟩

/-- Looking up a key absent from an association list finds nothing. -/
theorem find_key_eq_none {γ : Type} (l : List (String × γ)) (s : String)
    (h : s ∉ l.map Prod.fst) :
    l.find? (fun p => p.1 == s) = none := by
  rw [List.find?_eq_none]
  intro x hx hbeq
  simp only [List.mem_map] at h
  have hx1 : x.1 = s := by simpa using hbeq
  exact h ⟨x, hx, hx1⟩

/- ================================================================== -/
/- Claims.                                                            -/
/- ================================================================== -/

/-- C10: the scalar-to-validator table is total and matches the spec table
exactly — String, Boolean, Int, BigInt, Float, Decimal, DateTime, Json and
Bytes map to their listed validators, Float and Decimal collapse to the same
general numeric validator, and every scalar type name absent from the table
yields the unconstrained validator `z.any()` without any error (the lookup
is a total function). -/
theorem C10_scalar_table :
    scalarToZod "String" = "z.string()" ∧
    scalarToZod "Boolean" = "z.boolean()" ∧
    scalarToZod "Int" = "z.int()" ∧
    scalarToZod "BigInt" = "z.bigint()" ∧
    scalarToZod "Float" = "z.number()" ∧
    scalarToZod "Decimal" = "z.number()" ∧
    scalarToZod "Float" = scalarToZod "Decimal" ∧
    scalarToZod "DateTime" = "z.date()" ∧
    scalarToZod "Json" = "z.record(z.any())" ∧
    scalarToZod "Bytes" = "z.instanceof(Buffer)" ∧
    ∀ s : String, s ∉ PrismaScalarToZod.map Prod.fst →
      scalarToZod s = "z.any()" := by
  refine ⟨by decide, by decide, by decide, by decide, by decide, by decide,
    by decide, by decide, by decide, by decide, ?_⟩
  intro s hs
  unfold scalarToZod
  rw [find_key_eq_none _ _ hs]
  rfl

/-- C10 witness: a scalar type absent from the table (here `Unsupported`)
compiles to the unconstrained validator. -/
theorem C10_scalar_table_witness :
    scalarToZod "Unsupported" = "z.any()" :=
  C10_scalar_table.2.2.2.2.2.2.2.2.2.2 "Unsupported" (by decide)

/-- C1 counterexample: in model `M1` the only field carries the
required-in-update tag and is not an id, yet its compiled update validator
expression still carries the combined optional+nullable modifier
`.nullish()` — so the claim that the tag removes both modifiers from the
compiled update expression is false on the code. -/
theorem C1_counterexample :
    ((computeUpdateZodParams M1 [] th0).fields.map
        (fun f => isAnnotatedWith f.toField AnnotationTag.updateRequired))
      = [true] ∧
    ((computeUpdateZodParams M1 [] th0).fields.map
        (fun f => fieldToZodValidator f updOpts))
      = ["z.string().nullish()"] := by
  decide

/-- Invariant of one update-deriver step: it contributes only non-id
parsed fields whose required-in-update tag forces required/non-nullable. -/
theorem updateStep_inv (model : Model) (allModels : List Model)
    (th : TemplateHelpers) (ns : List String)
    (s : List ParsedField × List ImportStatementParams × List String)
    (a : Field) (b : ParsedField)
    (hb : b ∈ (updateStep model allModels th ns s a).1) :
    b ∈ s.1 ∨
      (b.isId = false ∧
        (isAnnotatedWith b.toField AnnotationTag.updateRequired = true →
          b.isRequired = true ∧ b.isNullable = false)) := by
  rcases updateStep_char model allModels th ns s a with ⟨_, heq⟩ | ⟨hom, heq⟩
  · rw [heq] at hb
    exact Or.inl hb
  · rw [heq] at hb
    rcases List.mem_append.mp hb with h | h
    · exact Or.inl h
    · right
      have hbe := List.mem_singleton.mp h
      subst hbe
      simp only [updateOmitted, Bool.or_eq_false_iff] at hom
      obtain ⟨⟨⟨⟨_, _⟩, h3⟩, _⟩, _⟩ := hom
      refine ⟨?_, ?_⟩
      · rw [mapDMMF_isId]
        simpa [isId] using h3
      · intro hann
        have hann2 : isAnnotatedWith (includeIdMutate ns a)
            AnnotationTag.updateRequired = true := hann
        refine ⟨?_, ?_⟩
        · rw [mapDMMF_isRequired]
          simp [updateOverrides, hann2]
        · rw [mapDMMF_isNullable]
          simp [updateOverrides, hann2]

/-- C1 (amended): every field of the update representation output is non-id
and its compiled update validator expression carries the combined
optional+nullable modifier `.nullish()`, whether or not it carries the
required-in-update tag; the tag only sets the derived flags — `isRequired`
true and `isNullable` false — without removing the modifier from the
compiled expression. -/
theorem C1_update_nullish (model : Model) (allModels : List Model)
    (th : TemplateHelpers) (opts : FieldToZodOptions)
    (hopts : opts.isUpdateSchema = true) (pf : ParsedField)
    (hmem : pf ∈ (computeUpdateZodParams model allModels th).fields) :
    pf.isId = false ∧
    (∃ core, fieldToZodValidator pf opts = core ++ ".nullish()") ∧
    (isAnnotatedWith pf.toField AnnotationTag.updateRequired = true →
      pf.isRequired = true ∧ pf.isNullable = false) := by
  have hfields :
      (computeUpdateZodParams model allModels th).fields =
        (model.fields.foldl
          (updateStep model allModels th
            (rsfNamesOf model.fields))
          ([], [], [])).1 := rfl
  rw [hfields] at hmem
  have key := foldl_proj_invariant
      (Prod.fst :
        List ParsedField × List ImportStatementParams × List String →
          List ParsedField)
      (updateStep model allModels th
        (rsfNamesOf model.fields))
      (fun _ b =>
        b.isId = false ∧
        (isAnnotatedWith b.toField AnnotationTag.updateRequired = true →
          b.isRequired = true ∧ b.isNullable = false))
      (fun s a b hb =>
        updateStep_inv model allModels th
          (rsfNamesOf model.fields) s a b hb)
      model.fields ([], [], [])
  have key2 := key pf hmem
  have key3 :
      pf.isId = false ∧
      (isAnnotatedWith pf.toField AnnotationTag.updateRequired = true →
        pf.isRequired = true ∧ pf.isNullable = false) := by
    rcases key2 with h | ⟨_, _, h⟩
    · simp at h
    · exact h
  refine ⟨key3.1, ⟨fieldToZodBase pf opts, ?_⟩, key3.2⟩
  simp [fieldToZodValidator, hopts, key3.1]

/-- C1 witness: the amended theorem applied to the concrete model `M1`. -/
theorem C1_update_nullish_witness :
    pf1.isId = false ∧
    (∃ core, fieldToZodValidator pf1 updOpts = core ++ ".nullish()") ∧
    (isAnnotatedWith pf1.toField AnnotationTag.updateRequired = true →
      pf1.isRequired = true ∧ pf1.isNullable = false) :=
  C1_update_nullish M1 [] th0 updOpts rfl pf1
    (by
      have h : (computeUpdateZodParams M1 [] th0).fields = [pf1] := by decide
      rw [h]
      exact List.mem_singleton.mpr rfl)

/-- C2 counterexample: in model `M2` the entity representation of the
schema-optional scalar field `nickname` (a non-list field) carries
`isRequired = true` together with `isNullable = true`, so
`isRequired == !isNullable` fails — the required/nullable complementarity
claim is false on the code. -/
theorem C2_counterexample :
    ((computeEntityZodParams M2 [] th0).fields.map
        (fun f => (f.isList, f.isRequired, f.isNullable)))
      = [(false, true, true)] ∧
    ((computeEntityZodParams M2 [] th0).fields.any
        (fun f => !f.isList && (f.isRequired == f.isNullable))) = true := by
  decide

/-- C2 (amended): in the entity representation, every included non-relation
field that is not a relation-scalar field has derived `isRequired` true and
derived `isNullable` equal to the negation of its schema-level `isRequired`
(so the complementarity `isRequired == !isNullable` holds exactly for
schema-required fields), and every included list-typed relation field has
`isNullable` false regardless of the required-in-entity-relation tag, with
`isRequired` equal to the presence of that tag. -/
theorem C2_entity_flags (model : Model) (allModels : List Model)
    (th : TemplateHelpers) (f : Field) (hf : f ∈ model.fields)
    (hhid : isAnnotatedWith f AnnotationTag.entityHidden = false)
    (hrsf : (rsfNamesOf model.fields).contains f.name = false) :
    (isRelation f = false →
      ∃ pf ∈ (computeEntityZodParams model allModels th).fields,
        pf.name = f.name ∧ pf.isRequired = true ∧
        pf.isNullable = !f.isRequired) ∧
    (isRelation f = true → f.isList = true →
      ∃ pf ∈ (computeEntityZodParams model allModels th).fields,
        pf.name = f.name ∧ pf.isNullable = false ∧
        pf.isRequired = isAnnotatedWith f AnnotationTag.relationRequired) := by
  have hfields :
      (computeEntityZodParams model allModels th).fields =
        (model.fields.foldl
          (entityStep model allModels th (getRelationScalars model.fields))
          ([], [], [])).1 := rfl
  have hrsf2 :
      ((getRelationScalars model.fields).map (fun p => p.1)).contains f.name
        = false := hrsf
  have hmem :
      mapDMMFToParsedField f
          (entityOverrides model (getRelationScalars model.fields) f)
          model.name ∈
        (computeEntityZodParams model allModels th).fields := by
    rw [hfields]
    refine mem_foldl_of_contrib
      (Prod.fst :
        List ParsedField × List ImportStatementParams × List String →
          List ParsedField)
      (entityStep model allModels th (getRelationScalars model.fields))
      (fun s a => entityStep_mono model allModels th
        (getRelationScalars model.fields) s a)
      model.fields f _ ?_ ([], [], []) hf
    intro s
    rcases entityStep_char model allModels th (getRelationScalars model.fields)
        s f with ⟨h1, _⟩ | ⟨_, heq⟩
    · rw [hhid] at h1; cases h1
    · rw [heq]
      exact List.mem_append_right _ (List.mem_singleton.mpr rfl)
  constructor
  · intro hrel
    refine ⟨mapDMMFToParsedField f
      (entityOverrides model (getRelationScalars model.fields) f)
      model.name, hmem, mapDMMF_name f _ _, ?_, ?_⟩
    · rw [mapDMMF_isRequired]
      simp only [entityOverrides]
      rw [hrsf2]
      simp [hrel]
    · rw [mapDMMF_isNullable]
      simp only [entityOverrides]
      rw [hrsf2]
      simp [hrel]
  · intro hrel hlist
    refine ⟨mapDMMFToParsedField f
      (entityOverrides model (getRelationScalars model.fields) f)
      model.name, hmem, mapDMMF_name f _ _, ?_, ?_⟩
    · rw [mapDMMF_isNullable]
      simp only [entityOverrides]
      rw [hrsf2]
      simp [hrel, hlist]
    · rw [mapDMMF_isRequired]
      simp only [entityOverrides]
      rw [hrsf2]
      simp [hrel]

/-- C2 witness: the amended theorem applied to the concrete model `M2`,
whose only field is a schema-optional scalar. -/
theorem C2_entity_flags_witness :
    ∃ pf ∈ (computeEntityZodParams M2 [] th0).fields,
      pf.name = optionalScalarField.name ∧ pf.isRequired = true ∧
      pf.isNullable = !optionalScalarField.isRequired :=
  (C2_entity_flags M2 [] th0 optionalScalarField
    (List.mem_singleton.mpr rfl) (by decide) (by decide)).1 (by decide)

/-- Invariant of one plain-deriver step: it contributes only non-relation
parsed fields, and a contributed relation-scalar field carries the
include-relation-id tag. -/
theorem plainStep_inv (model : Model) (allModels : List Model)
    (th : TemplateHelpers) (ns : List String)
    (s : List ParsedField × List ImportStatementParams × List String)
    (a : Field) (b : ParsedField)
    (hb : b ∈ (plainStep model allModels th ns s a).1) :
    b ∈ s.1 ∨
      (isRelation b.toField = false ∧
        (ns.contains b.name = true →
          isAnnotatedWith b.toField AnnotationTag.relationIncludeId = true)) := by
  rcases plainStep_char model allModels th ns s a with ⟨_, heq⟩ | ⟨hinc, heq⟩
  · rw [heq] at hb
    exact Or.inl hb
  · rw [heq] at hb
    rcases List.mem_append.mp hb with h | h
    · exact Or.inl h
    · right
      have hbe := List.mem_singleton.mp h
      subst hbe
      simp only [plainIncluded, Bool.and_eq_true, Bool.not_eq_true'] at hinc
      refine ⟨hinc.1, ?_⟩
      intro hcon
      have hcon2 : ns.contains a.name = true := hcon
      rcases Bool.or_eq_true_iff.mp hinc.2 with h2 | h2
      · exact h2
      · rw [hcon2] at h2
        cases h2

/-- C4 counterexample: in model `M2` the plain representation of the
schema-optional scalar field `nickname` has derived `isRequired = true`
while the schema-level `isRequired` is false — the claim that derived
`isRequired` equals schema-level `isRequired` is false on the code (the
derived `isNullable` half of the claim does hold). -/
theorem C4_counterexample :
    (M2.fields.map (fun f => f.isRequired)) = [false] ∧
    ((computePlainZodParams M2 [] th0).fields.map
        (fun f => (f.name, f.isRequired, f.isNullable)))
      = [("nickname", true, true)] := by
  decide

/-- C4 (amended): in the plain representation, relation fields are excluded,
a relation-scalar field is included only when it carries the
include-relation-id tag, and every included field has derived `isRequired`
true (not its schema-level value) and derived `isNullable` equal to the
negation of its schema-level `isRequired`. -/
theorem C4_plain (model : Model) (allModels : List Model)
    (th : TemplateHelpers) :
    (∀ pf ∈ (computePlainZodParams model allModels th).fields,
      isRelation pf.toField = false ∧
      ((rsfNamesOf model.fields).contains pf.name = true →
        isAnnotatedWith pf.toField AnnotationTag.relationIncludeId = true)) ∧
    (∀ f ∈ model.fields, isRelation f = false →
      (isAnnotatedWith f AnnotationTag.relationIncludeId = true ∨
        (rsfNamesOf model.fields).contains f.name = false) →
      ∃ pf ∈ (computePlainZodParams model allModels th).fields,
        pf.name = f.name ∧ pf.isRequired = true ∧
        pf.isNullable = !f.isRequired) := by
  have hfields :
      (computePlainZodParams model allModels th).fields =
        (model.fields.foldl
          (plainStep model allModels th (rsfNamesOf model.fields))
          ([], [], [])).1 := rfl
  constructor
  · intro pf hpf
    rw [hfields] at hpf
    have key := foldl_proj_invariant
        (Prod.fst :
          List ParsedField × List ImportStatementParams × List String →
            List ParsedField)
        (plainStep model allModels th (rsfNamesOf model.fields))
        (fun _ b =>
          isRelation b.toField = false ∧
          ((rsfNamesOf model.fields).contains b.name = true →
            isAnnotatedWith b.toField AnnotationTag.relationIncludeId = true))
        (fun s a b hb =>
          plainStep_inv model allModels th (rsfNamesOf model.fields) s a b hb)
        model.fields ([], [], [])
    rcases key pf hpf with h | ⟨_, _, h⟩
    · simp at h
    · exact h
  · intro f hf hrel hinc
    have hincb : plainIncluded (rsfNamesOf model.fields) f = true := by
      simp only [plainIncluded, hrel, Bool.not_false, Bool.true_and]
      rcases hinc with h | h
      · simp [h]
      · simp
        exact Or.inr (by simpa using h)
    refine ⟨mapDMMFToParsedField f
      { isRequired := some true, isNullable := some (!f.isRequired) }
      model.name, ?_, mapDMMF_name f _ _, by rw [mapDMMF_isRequired]; rfl,
      by rw [mapDMMF_isNullable]; rfl⟩
    rw [hfields]
    refine mem_foldl_of_contrib
      (Prod.fst :
        List ParsedField × List ImportStatementParams × List String →
          List ParsedField)
      (plainStep model allModels th (rsfNamesOf model.fields))
      (fun s a => plainStep_mono model allModels th
        (rsfNamesOf model.fields) s a)
      model.fields f _ ?_ ([], [], []) hf
    intro s
    rcases plainStep_char model allModels th (rsfNamesOf model.fields) s f
      with ⟨h1, _⟩ | ⟨_, heq⟩
    · rw [hincb] at h1; cases h1
    · rw [heq]
      exact List.mem_append_right _ (List.mem_singleton.mpr rfl)

/-- C4 witness: the amended theorem applied to the concrete model `M2`. -/
theorem C4_plain_witness :
    ∃ pf ∈ (computePlainZodParams M2 [] th0).fields,
      pf.name = optionalScalarField.name ∧ pf.isRequired = true ∧
      pf.isNullable = !optionalScalarField.isRequired :=
  (C4_plain M2 [] th0).2 optionalScalarField (List.mem_singleton.mpr rfl)
    (by decide) (Or.inr (by decide))

/-- C8 counterexample: model `M8` has exactly one id-or-unique candidate, a
schema-optional unique field; the connect representation derives it with
`isRequired = false` — the claim that a single candidate is always marked
required is false on the code (no override is applied, so the schema-level
flag is kept). -/
theorem C8_counterexample :
    (connectCandidates M8).length = 1 ∧
    ((computeConnectZodParams M8 th0).fields.map
        (fun pf => (pf.isRequired, pf.isNullable))) = [(false, false)] := by
  decide

/-- C8 (amended): in the connect representation, a single id-or-unique
candidate keeps its schema-level `isRequired` (hence is required exactly
when the unique field is schema-required) and is non-nullable; with more
than one candidate (for example an id plus two further unique fields) every
candidate is derived optional and non-nullable. -/
theorem C8_connect (model : Model) (th : TemplateHelpers) :
    (∀ f0 : Field, connectCandidates model = [f0] →
      (computeConnectZodParams model th).fields.map
          (fun pf => (pf.name, pf.isRequired, pf.isNullable))
        = [(f0.name, f0.isRequired, false)]) ∧
    (1 < (connectCandidates model).length →
      ∀ pf ∈ (computeConnectZodParams model th).fields,
        pf.isRequired = false ∧ pf.isNullable = false) := by
  have hfields :
      (computeConnectZodParams model th).fields =
        (connectCandidates model).map fun f =>
          mapDMMFToParsedField f
            (if (connectCandidates model).length > 1 then
              { isRequired := some false, isNullable := some false }
            else { isRequired := none, isNullable := none })
            model.name := rfl
  constructor
  · intro f0 hc
    rw [hfields, hc]
    simp [mapDMMFToParsedField]
  · intro hlen pf hpf
    rw [hfields] at hpf
    rcases List.mem_map.mp hpf with ⟨a, _, hpe⟩
    subst hpe
    constructor
    · rw [mapDMMF_isRequired]
      simp [hlen]
    · rw [mapDMMF_isNullable]
      simp [hlen]

/-- C8 witness: the amended theorem applied to `M8b`, whose single candidate
is schema-required, and to `M8`. -/
theorem C8_connect_witness :
    (computeConnectZodParams M8b th0).fields.map
        (fun pf => (pf.name, pf.isRequired, pf.isNullable))
      = [(requiredUniqueField.name, requiredUniqueField.isRequired, false)] :=
  (C8_connect M8b th0).1 requiredUniqueField (by decide)

/-- Two folds with pointwise equal step functions agree. -/
theorem foldl_congr_fun {σ α : Type} (g₁ g₂ : σ → α → σ)
    (h : ∀ s a, g₁ s a = g₂ s a) :
    ∀ (l : List α) (s : σ), l.foldl g₁ s = l.foldl g₂ s := by
  intro l
  induction l with
  | nil => intro s; rfl
  | cons a l ih =>
    intro s
    rw [List.foldl_cons, List.foldl_cons, h, ih]

/-- The include-relation-id mutation is idempotent. -/
theorem includeIdMutate_idem (ns : List String) (f : Field) :
    includeIdMutate ns (includeIdMutate ns f) = includeIdMutate ns f := by
  by_cases hc :
      (isAnnotatedWith f AnnotationTag.relationIncludeId &&
        ns.contains f.name) = true
  · have h1 : includeIdMutate ns f = { f with isReadOnly := false } := by
      unfold includeIdMutate
      rw [if_pos hc]
    rw [h1]
    have hc2 :
        (isAnnotatedWith ({ f with isReadOnly := false } : Field)
            AnnotationTag.relationIncludeId &&
          ns.contains ({ f with isReadOnly := false } : Field).name) = true :=
      hc
    unfold includeIdMutate
    rw [if_pos hc2]
  · have h1 : includeIdMutate ns f = f := by
      unfold includeIdMutate
      rw [if_neg hc]
    rw [h1, h1]

/-- The names of the fields backing a given scalar are unchanged by the
include-relation-id mutation. -/
theorem filter_map_name_mutate (ns : List String) (s : String)
    (l : List Field) :
    (((l.map (includeIdMutate ns)).filter
        (fun f => f.relationFromFields.contains s)).map (fun f => f.name))
      = ((l.filter (fun f => f.relationFromFields.contains s)).map
          (fun f => f.name)) := by
  induction l with
  | nil => rfl
  | cons a l ih =>
    simp only [List.map_cons, List.filter_cons,
      includeIdMutate_relationFromFields]
    by_cases h : (a.relationFromFields.contains s) = true
    · simp only [h, if_true, List.map_cons, includeIdMutate_name, ih]
    · simp only [h, Bool.false_eq_true, if_false, ih]

/-- The relation-scalar map is unchanged by the include-relation-id
mutation. -/
theorem getRelationScalars_mutate (ns : List String) (l : List Field) :
    getRelationScalars (l.map (includeIdMutate ns)) = getRelationScalars l := by
  unfold getRelationScalars
  have h1 :
      ((l.map (includeIdMutate ns)).map (fun f => f.relationFromFields))
        = l.map (fun f => f.relationFromFields) := by
    rw [List.map_map]
    exact List.map_congr_left
      (fun a _ => includeIdMutate_relationFromFields ns a)
  rw [h1]
  exact foldl_congr_fun _ _
    (fun acc s => by
      by_cases h : (acc.any (fun p => p.1 == s)) = true
      · simp [h]
      · simp only [h, if_false, Bool.false_eq_true]
        rw [filter_map_name_mutate]) _ _

/-- The relation-scalar names are unchanged by the include-relation-id
mutation. -/
theorem rsfNamesOf_mutate (ns : List String) (l : List Field) :
    rsfNamesOf (l.map (includeIdMutate ns)) = rsfNamesOf l := by
  unfold rsfNamesOf
  rw [getRelationScalars_mutate]

/-- A create-deriver step is blind to a prior include-relation-id mutation of
its field argument. -/
theorem createStep_mutate (model : Model) (allModels : List Model)
    (th : TemplateHelpers) (ns : List String)
    (s : List ParsedField × List ImportStatementParams × List String)
    (a : Field) :
    createStep model allModels th ns s (includeIdMutate ns a) =
      createStep model allModels th ns s a := by
  simp only [createStep, createOmitted, includeIdMutate_idem]

/-- An update-deriver step is blind to a prior include-relation-id mutation
of its field argument. -/
theorem updateStep_mutate (model : Model) (allModels : List Model)
    (th : TemplateHelpers) (ns : List String)
    (s : List ParsedField × List ImportStatementParams × List String)
    (a : Field) :
    updateStep model allModels th ns s (includeIdMutate ns a) =
      updateStep model allModels th ns s a := by
  simp only [updateStep, updateOmitted, includeIdMutate_idem]

/-- C3 counterexample: invoking the create (or update) deriver on `M3`
mutates the input field registry — the read-only foreign-key scalar
`authorId`, annotated include-relation-id, has its `isReadOnly` attribute
set to false — so the claim that no field attribute is mutated is false on
the code (computeCreateZodParams line 308, computeUpdateZodParams line
426). -/
theorem C3_counterexample :
    ((createPostFields M3).map (fun f => f.isReadOnly)) = [false, false] ∧
    (M3.fields.map (fun f => f.isReadOnly)) = [false, true] ∧
    createPostFields M3 ≠ M3.fields := by
  decide

/-- C3 (amended): the create and update derivers mutate exactly the
`isReadOnly` attribute (to false) of relation-scalar fields annotated with
the include-relation-id tag and change nothing else; the mutation is
idempotent, and invoking either deriver on the already-mutated registry
returns the same fields, imports and lazyRelations (only the echoed model
object differs), so repeated invocation or reordering of the derivers does
not change any output. -/
theorem C3_mutation (model : Model) (allModels : List Model)
    (th : TemplateHelpers) :
    (∀ (ns : List String) (f : Field),
      includeIdMutate ns f = f ∨
      includeIdMutate ns f = { f with isReadOnly := false }) ∧
    createPostFields { model with fields := createPostFields model }
      = createPostFields model ∧
    computeCreateZodParams { model with fields := createPostFields model }
        allModels th
      = { computeCreateZodParams model allModels th with
          model := { model with fields := createPostFields model } } ∧
    computeUpdateZodParams { model with fields := createPostFields model }
        allModels th
      = { computeUpdateZodParams model allModels th with
          model := { model with fields := createPostFields model } } := by
  have hframe :
      ∀ (ns : List String) (f : Field),
        includeIdMutate ns f = f ∨
        includeIdMutate ns f = { f with isReadOnly := false } := by
    intro ns f
    unfold includeIdMutate
    split
    · exact Or.inr rfl
    · exact Or.inl rfl
  have hns : rsfNamesOf (createPostFields model) = rsfNamesOf model.fields := by
    unfold createPostFields
    exact rsfNamesOf_mutate _ _
  have hidem :
      createPostFields { model with fields := createPostFields model }
        = createPostFields model := by
    show (createPostFields model).map
        (includeIdMutate (rsfNamesOf (createPostFields model)))
      = createPostFields model
    rw [hns]
    unfold createPostFields
    rw [List.map_map]
    exact List.map_congr_left
      (fun a _ => includeIdMutate_idem (rsfNamesOf model.fields) a)
  refine ⟨hframe, hidem, ?_, ?_⟩
  · show computeCreateZodParams { model with fields := createPostFields model }
        allModels th = _
    simp only [computeCreateZodParams]
    rw [hns]
    have hstep :
        ∀ s a, createStep { model with fields := createPostFields model }
            allModels th (rsfNamesOf model.fields) s a
          = createStep model allModels th (rsfNamesOf model.fields) s a :=
      fun s a => rfl
    rw [foldl_congr_fun _ _ hstep]
    unfold createPostFields
    rw [foldl_map_eq _ _
      (fun s a => createStep_mutate model allModels th
        (rsfNamesOf model.fields) s a)]
  · show computeUpdateZodParams { model with fields := createPostFields model }
        allModels th = _
    simp only [computeUpdateZodParams]
    rw [hns]
    have hstep :
        ∀ s a, updateStep { model with fields := createPostFields model }
            allModels th (rsfNamesOf model.fields) s a
          = updateStep model allModels th (rsfNamesOf model.fields) s a :=
      fun s a => rfl
    rw [foldl_congr_fun _ _ hstep]
    unfold createPostFields
    rw [foldl_map_eq _ _
      (fun s a => updateStep_mutate model allModels th
        (rsfNamesOf model.fields) s a)]

/-- A field classified as an embedded type is not a relation. -/
theorem isType_isRelation_false (f : Field) (h : isType f = true) :
    isRelation f = false := by
  simp only [isType, Bool.and_eq_true] at h
  have h2 := Option.isNone_iff_eq_none.mp h.2
  simp [isRelation, h2]

/-- A field classified as a relation is not an embedded type. -/
theorem isRelation_isType_false (f : Field) (h : isRelation f = true) :
    isType f = false := by
  simp only [isRelation, Bool.and_eq_true] at h
  rcases Option.isSome_iff_exists.mp h.2 with ⟨v, hv⟩
  simp [isType, hv]

/-- C5: evaluation at the failing input.  In model `M5` the embedded-type
field `meta` carries the custom-type-override tag and its target model
`Meta` is in the registry; the plain deriver nevertheless records an
ImportRequirement naming the plain schema of `Meta` and a lazyRelations
entry for it, while the entity deriver (as the claim and the code comment on
`hasCustomTypeOverride` demand) records neither, and the compiled validator
of the field is the opaque `z.any()`, which never references the imported
schema name. -/
theorem C5_custom_type_imports :
    (computePlainZodParams M5 [MMeta, M5] th0).lazyRelations = ["Meta"] ∧
    ((computePlainZodParams M5 [MMeta, M5] th0).imports.map
        (fun i => i.destruct)) = [["z"], ["PMeta"]] ∧
    (computeEntityZodParams M5 [MMeta, M5] th0).lazyRelations = [] ∧
    ((computeEntityZodParams M5 [MMeta, M5] th0).imports.map
        (fun i => i.destruct)) = [["z"]] ∧
    ((computePlainZodParams M5 [MMeta, M5] th0).fields.map
        (fun f => fieldToZodValidator f
          { schemaName := some th0.plainZodSchemaName,
            isUpdateSchema := false }))
      = ["z.any()"] := by
  decide

/-- C6 counterexample: in model `M6` the relation field `manager` is
self-referential (`field.type = model.name`) and carries no custom-type tag;
the entity deriver registers no import for it but does append `Employee` to
lazyRelations — so the claim that self-referential fields contribute neither
an import nor a lazyRelations entry is false on the code. -/
theorem C6_counterexample :
    (computeEntityZodParams M6 [M6] th0).lazyRelations = ["Employee"] ∧
    ((computeEntityZodParams M6 [M6] th0).imports.map (fun i => i.destruct))
      = [["z"]] := by
  decide

/-- C6 (amended): in the entity deriver, an embedded-type field registers
an import of the target plain schema together with a lazyRelations entry iff
it is non-self-referential, lacks a custom-type tag and its target model is
found; a self-referential embedded-type field contributes neither.  A
relation field registers no import when self-referential, but appends its
type to lazyRelations whenever it lacks a custom-type tag — including the
self-referential case. -/
theorem C6_entity_imports (model : Model) (allModels : List Model)
    (th : TemplateHelpers) (rsf : List (String × List String))
    (acc : List ParsedField × List ImportStatementParams × List String)
    (f : Field)
    (hhid : isAnnotatedWith f AnnotationTag.entityHidden = false) :
    (isType f = true → f.type = model.name →
      (entityStep model allModels th rsf acc f).2.1 = acc.2.1 ∧
      (entityStep model allModels th rsf acc f).2.2 = acc.2.2) ∧
    (∀ m2 : Model, isType f = true → f.type ≠ model.name →
      hasCustomTypeOverride f = false →
      allModels.find? (fun m => m.name == f.type) = some m2 →
      (entityStep model allModels th rsf acc f).2.1 =
        acc.2.1 ++
          [{ from_ :=
               getRelativePath model.output.entity m2.output.dto ++ "/" ++
                 th.plainZodSchemaFilename f.type false,
             destruct := [th.plainZodSchemaName f.type] }] ∧
      (entityStep model allModels th rsf acc f).2.2 = acc.2.2 ++ [f.type]) ∧
    (isRelation f = true → hasCustomTypeOverride f = false →
      (entityStep model allModels th rsf acc f).2.2 = acc.2.2 ++ [f.type]) ∧
    (isRelation f = true → f.type = model.name →
      (entityStep model allModels th rsf acc f).2.1 = acc.2.1) := by
  rcases entityStep_char model allModels th rsf acc f with ⟨h1, _⟩ | ⟨_, heq⟩
  · rw [hhid] at h1; cases h1
  · refine ⟨?_, ?_, ?_, ?_⟩
    · intro hty hself
      have hrel := isType_isRelation_false f hty
      rw [heq]
      constructor
      · show acc.2.1 ++ entityImports model allModels th f = acc.2.1
        simp [entityImports, hself, hrel]
      · show acc.2.2 ++ entityLazy model allModels f = acc.2.2
        simp [entityLazy, hself, hrel]
    · intro m2 hty hself hcust hfind
      have hrel := isType_isRelation_false f hty
      rw [heq]
      constructor
      · show acc.2.1 ++ entityImports model allModels th f = _
        simp [entityImports, hty, hrel, hcust, hfind, bne_iff_ne, hself]
      · show acc.2.2 ++ entityLazy model allModels f = _
        simp [entityLazy, hty, hrel, hcust, hfind, bne_iff_ne, hself]
    · intro hrel hcust
      have hty := isRelation_isType_false f hrel
      rw [heq]
      show acc.2.2 ++ entityLazy model allModels f = _
      simp [entityLazy, hty, hrel, hcust]
    · intro hrel hself
      have hty := isRelation_isType_false f hrel
      rw [heq]
      show acc.2.1 ++ entityImports model allModels th f = acc.2.1
      simp [entityImports, hty, hrel, hself]

/-- C6 witness: the amended theorem applied to the self-referential relation
field of `M6` — it appends a lazyRelations entry despite being
self-referential. -/
theorem C6_entity_imports_witness :
    (entityStep M6 [M6] th0 (getRelationScalars M6.fields) ([], [], [])
        managerField).2.2
      = ([] : List String) ++ [managerField.type] :=
  (C6_entity_imports M6 [M6] th0 (getRelationScalars M6.fields) ([], [], [])
    managerField (by decide)).2.2.1 (by decide) (by decide)

/-- The include-relation-id mutation does not change annotations. -/
theorem includeIdMutate_annot (ns : List String) (f : Field)
    (t : AnnotationTag) :
    isAnnotatedWith (includeIdMutate ns f) t = isAnnotatedWith f t := by
  unfold includeIdMutate; split <;> rfl

/-- The include-relation-id mutation does not change relation status. -/
theorem includeIdMutate_isRelation (ns : List String) (f : Field) :
    isRelation (includeIdMutate ns f) = isRelation f := by
  unfold includeIdMutate; split <;> rfl

/-- The include-relation-id mutation never turns a non-read-only field
read-only. -/
theorem includeIdMutate_isReadOnly_false (ns : List String) (f : Field)
    (h : f.isReadOnly = false) :
    (includeIdMutate ns f).isReadOnly = false := by
  unfold includeIdMutate
  split
  · rfl
  · exact h

/-- Invariant of one create-deriver step: every contributed parsed field
keeps the name of a source field whose omission predicate is false. -/
theorem createStep_name_inv (model : Model) (allModels : List Model)
    (th : TemplateHelpers) (ns : List String)
    (s : List ParsedField × List ImportStatementParams × List String)
    (a : Field) (b : ParsedField)
    (hb : b ∈ (createStep model allModels th ns s a).1) :
    b ∈ s.1 ∨ (b.name = a.name ∧ createOmitted th ns a = false) := by
  rcases createStep_char model allModels th ns s a with ⟨_, heq⟩ | ⟨hom, heq⟩
  · rw [heq] at hb
    exact Or.inl hb
  · rw [heq] at hb
    rcases List.mem_append.mp hb with h | h
    · exact Or.inl h
    · right
      have hbe := List.mem_singleton.mp h
      subst hbe
      exact ⟨by rw [mapDMMF_name, includeIdMutate_name], hom⟩

/-- C7: in the create representation, an id field with a default-value
descriptor and no create-override tag is absent from the output field set;
the same field carrying the create-required tag is present with derived
`isRequired` true (and `isNullable` false). -/
theorem C7_create_id_default (model : Model) (allModels : List Model)
    (th : TemplateHelpers) (f : Field)
    (hid : f.isId = true) (hdef : f.default.isSome = true)
    (hf : f ∈ model.fields) :
    ((isAnnotatedWith f AnnotationTag.createOptional = false ∧
      isAnnotatedWith f AnnotationTag.createRequired = false) →
      (model.fields.map (fun g => g.name)).Nodup →
      ∀ pf ∈ (computeCreateZodParams model allModels th).fields,
        pf.name ≠ f.name) ∧
    (isAnnotatedWith f AnnotationTag.createRequired = true →
      f.isReadOnly = false →
      isAnnotatedWith f AnnotationTag.createHidden = false →
      isRelation f = false →
      (isAnnotatedWith f AnnotationTag.relationIncludeId = true ∨
        (rsfNamesOf model.fields).contains f.name = false) →
      ∃ pf ∈ (computeCreateZodParams model allModels th).fields,
        pf.name = f.name ∧ pf.isRequired = true ∧ pf.isNullable = false) := by
  have hfields :
      (computeCreateZodParams model allModels th).fields =
        (model.fields.foldl
          (createStep model allModels th (rsfNamesOf model.fields))
          ([], [], [])).1 := rfl
  constructor
  · intro htags hnd pf hpf heqn
    have homit :
        createOmitted th (rsfNamesOf model.fields) f = true := by
      simp only [createOmitted, includeIdMutate_annot, isIdWithDefaultValue,
        isId, includeIdMutate_isId, includeIdMutate_default]
      simp [htags.1, htags.2, hid, hdef]
    rw [hfields] at hpf
    have key := foldl_proj_invariant
        (Prod.fst :
          List ParsedField × List ImportStatementParams × List String →
            List ParsedField)
        (createStep model allModels th (rsfNamesOf model.fields))
        (fun a b =>
          b.name = a.name ∧
          createOmitted th (rsfNamesOf model.fields) a = false)
        (fun s a b hb =>
          createStep_name_inv model allModels th (rsfNamesOf model.fields)
            s a b hb)
        model.fields ([], [], [])
    rcases key pf hpf with h | ⟨a, ha, hname, hom⟩
    · simp at h
    · have haf : a = f :=
        List.inj_on_of_nodup_map hnd ha hf (by rw [← hname, heqn])
      rw [haf, homit] at hom
      cases hom
  · intro hreq hro hch hrel hinc
    have hreq2 :
        isAnnotatedWith (includeIdMutate (rsfNamesOf model.fields) f)
          AnnotationTag.createRequired = true := by
      rw [includeIdMutate_annot]; exact hreq
    have homit :
        createOmitted th (rsfNamesOf model.fields) f = false := by
      simp only [createOmitted, Bool.or_eq_false_iff]
      refine ⟨⟨⟨⟨?_, ?_⟩, ?_⟩, ?_⟩, ?_⟩
      · show isReadOnly (includeIdMutate (rsfNamesOf model.fields) f) = false
        unfold isReadOnly
        exact includeIdMutate_isReadOnly_false _ f hro
      · rw [includeIdMutate_annot]; exact hch
      · rw [includeIdMutate_isRelation]; exact hrel
      · rw [includeIdMutate_annot, includeIdMutate_name]
        rcases hinc with h | h
        · simp [h]
        · simp
          intro _
          simpa using h
      · rw [includeIdMutate_annot, includeIdMutate_annot]
        simp [hreq]
    refine ⟨mapDMMFToParsedField
      (includeIdMutate (rsfNamesOf model.fields) f)
      (createOverrides th (includeIdMutate (rsfNamesOf model.fields) f))
      model.name, ?_, ?_, ?_, ?_⟩
    · rw [hfields]
      refine mem_foldl_of_contrib
        (Prod.fst :
          List ParsedField × List ImportStatementParams × List String →
            List ParsedField)
        (createStep model allModels th (rsfNamesOf model.fields))
        (fun s a => createStep_mono model allModels th
          (rsfNamesOf model.fields) s a)
        model.fields f _ ?_ ([], [], []) hf
      intro s
      rcases createStep_char model allModels th (rsfNamesOf model.fields) s f
        with ⟨h1, _⟩ | ⟨_, heq⟩
      · rw [homit] at h1; cases h1
      · rw [heq]
        exact List.mem_append_right _ (List.mem_singleton.mpr rfl)
    · rw [mapDMMF_name, includeIdMutate_name]
    · rw [mapDMMF_isRequired]
      simp [createOverrides, hreq2]
    · rw [mapDMMF_isNullable]
      simp [createOverrides, hreq2]

/-- C7 witness: the theorem applied to the concrete models `M7b`. -/
theorem C7_create_id_default_witness :
    ∃ pf ∈ (computeCreateZodParams M7b [] th0).fields,
      pf.name = autoIdRequiredField.name ∧ pf.isRequired = true ∧
      pf.isNullable = false :=
  (C7_create_id_default M7b [] th0 autoIdRequiredField (by decide) (by decide)
    (List.mem_singleton.mpr rfl)).2 (by decide) (by decide) (by decide)
    (by decide) (Or.inr (by decide))

/-- An unknown output-file-type mode makes the per-model file switch
throw. -/
theorem modelFilesFor_unknown (p : RunParam) (am : List Model) (m : Model)
    (h1 : p.generateFileTypes ≠ "all") (h2 : p.generateFileTypes ≠ "dto")
    (h3 : p.generateFileTypes ≠ "entity") :
    modelFilesFor p am m =
      Except.error "Unknown generateFileTypes value." := by
  simp only [modelFilesFor]
  rw [show (p.generateFileTypes == "all") = false from
      beq_eq_false_iff_ne.mpr h1,
    show (p.generateFileTypes == "dto") = false from
      beq_eq_false_iff_ne.mpr h2,
    show (p.generateFileTypes == "entity") = false from
      beq_eq_false_iff_ne.mpr h3]
  simp

/-- C9 counterexample: with the unknown output-file-type mode `bogus` over a
registry containing an embedded type but no model, the run completes
normally and produces three output files — the claim that an unknown
output-mode value aborts the run immediately with no output is false on the
code (the check sits inside the per-model loop, never reached without
models). -/
theorem C9_counterexample :
    p9c.generateFileTypes = "bogus" ∧
    runOk (run p9c) = true ∧
    (runFiles (run p9c)).length = 3 := by
  decide

/-- C9 (amended): entity-only mode with at least one non-ignored embedded
type aborts the run before producing any output; an unknown output-mode
value aborts the run (producing no output) whenever at least one non-ignored
model exists, but when no model exists the unknown value goes undetected and
the run completes normally. -/
theorem C9_run_aborts (p : RunParam) :
    (p.generateFileTypes = "entity" → filteredTypesOf p ≠ [] →
      ∃ e, run p = Except.error e) ∧
    (p.generateFileTypes ≠ "all" → p.generateFileTypes ≠ "dto" →
      p.generateFileTypes ≠ "entity" →
      (filteredModelsOf p ≠ [] → ∃ e, run p = Except.error e) ∧
      (filteredModelsOf p = [] → runOk (run p) = true)) := by
  constructor
  · intro h1 h2
    have hb : (p.generateFileTypes == "entity") = true := beq_iff_eq.mpr h1
    have he : (filteredTypesOf p).isEmpty = false := by
      rcases hl : filteredTypesOf p with _ | ⟨x, xs⟩
      · exact absurd hl h2
      · rfl
    refine
      ⟨"Generating only Entity files while having complex types is not possible. Set generateFileTypes to all or dto.",
        ?_⟩
    simp only [run]
    rw [hb, he]
    rfl
  · intro h1 h2 h3
    have hb : (p.generateFileTypes == "entity") = false :=
      beq_eq_false_iff_ne.mpr h3
    constructor
    · intro hmodels
      rcases hl : filteredModelsOf p with _ | ⟨m, rest⟩
      · exact absurd hl hmodels
      · refine ⟨"Unknown generateFileTypes value.", ?_⟩
        simp only [run]
        rw [hb]
        simp only [Bool.false_and, Bool.false_eq_true, if_false]
        rw [hl]
        simp only [mapExcept, modelFilesFor_unknown p _ m h1 h2 h3]
    · intro hl
      simp only [run, runOk]
      rw [hb]
      simp only [Bool.false_and, Bool.false_eq_true, if_false]
      rw [hl]
      rfl

/-- C9 witness: the amended theorem applied to the concrete configuration
`p9w` (unknown mode, one model): the run aborts with an error. -/
theorem C9_run_aborts_witness :
    ∃ e, run p9w = Except.error e :=
  ((C9_run_aborts p9w).2 (by decide) (by decide) (by decide)).1 (by decide)

end Gen
